import Mathlib

/-!
Verification of the SQANTI3 isoform structural classification engine
(`src/sqanti3/sqanti3_qc.py`) against its natural-language specification.

The Python source is shallowly embedded below: pure helper functions become
Lean functions, the per-query mutable `isoform_hit` object becomes explicit
state passing over the `myQueryTranscripts` structure, and the per-chromosome
interval trees (external `bx.intervals` structures) are modelled as lists of
records filtered by chromosome and span overlap, which is the documented query
semantics of the tree.  Coordinates are `Int` (Python integers do not
overflow).  Optional "NA" fields become `Option Int`.
-/

namespace SQ3

/-- `bx.intervals.intersection.Interval`: a half-open genomic interval
`[start, stop)`.  (Python attribute `end` is a Lean keyword, renamed `stop`.) -/
structure Interval where
  start : Int
  stop : Int
deriving DecidableEq, Repr

/-- `genePredRecord.__init__` (sqanti3_qc.py lines 156-194): one transcript
record, query or reference.  `exonStarts` are 0-based, `exonEnds` 1-based. -/
structure genePredRecord where
  id : String
  chrom : String
  strand : String
  txStart : Int
  txEnd : Int
  exonCount : Nat
  exonStarts : List Int
  exonEnds : List Int
  gene : String
deriving DecidableEq, Repr

namespace genePredRecord

/-- `self.length`: sum of exon spans (`__init__` accumulates `e - s` over
`zip(exonStarts, exonEnds)`). -/
def length (r : genePredRecord) : Int :=
  (r.exonStarts.zip r.exonEnds).foldl (fun acc p => acc + (p.2 - p.1)) 0

/-- `self.exons`: the zipped exon interval list. -/
def exons (r : genePredRecord) : List Interval :=
  (r.exonStarts.zip r.exonEnds).map (fun p => { start := p.1, stop := p.2 })

/-- `self.junctions`: `[(exonEnds[i], exonStarts[i+1]) for i in
range(exonCount - 1)]`, stored as (1-based last base of the previous exon,
0-based first base of the next exon).  Out-of-range indices (impossible for
records whose lists match `exonCount`; Python would raise) default to 0. -/
def junctions (r : genePredRecord) : List (Int × Int) :=
  (List.range (r.exonCount - 1)).map
    (fun i => (r.exonEnds.getD i 0, r.exonStarts.getD (i + 1) 0))

end genePredRecord

/-- All integers in `[s, e)`, the footprint of Python `range(start, end)` used
by `calc_exon_overlap`. -/
def intRange (s e : Int) : List Int :=
  (List.range (e - s).toNat).map (fun i => s + i)

/-- Inner helper `calc_overlap(s1, e1, s2, e2)` of `transcriptsKnownSpliceSites`
(lines 1111-1116): overlap length of two intervals, 0 when either start is
"NA".  The swap in the source does not change `max 0 (min e1 e2 - max s1 s2)`,
which is written directly here. -/
def calc_overlap (s1 e1 s2 e2 : Option Int) : Int :=
  match s1, s2 with
  | some a, some b => max 0 (min (e1.getD 0) (e2.getD 0) - max a b)
  | _, _ => 0

/-- `calc_splicesite_agreement(query_exons, ref_exons)` (lines 1135-1145):
the number of distinct query exon boundary coordinates (starts and ends,
deduplicated by the Python dict) that occur as a boundary of some reference
exon. -/
def calc_splicesite_agreement (query_exons ref_exons : List Interval) : Int :=
  let q_sites := (query_exons.map Interval.start ++ query_exons.map Interval.stop).dedup
  let ref_sites := ref_exons.map Interval.start ++ ref_exons.map Interval.stop
  (q_sites.countP (fun c => decide (c ∈ ref_sites)) : Int)

/-- `calc_exon_overlap(query_exons, ref_exons)` (lines 1147-1157): the number
of distinct genomic base positions covered by the query exons (the Python
`q_bases` dict) that are also covered by some reference exon. -/
def calc_exon_overlap (query_exons ref_exons : List Interval) : Int :=
  let q_bases := (query_exons.flatMap (fun e => intRange e.start e.stop)).dedup
  (q_bases.countP
    (fun b => ref_exons.any (fun e => decide (e.start ≤ b) && decide (b < e.stop))) : Int)

/-- `get_diff_tss_tts(trec, ref)` (lines 1159-1166): strand-normalized signed
distances of the query ends to the reference ends. -/
def get_diff_tss_tts (trec ref : genePredRecord) : Int × Int :=
  if trec.strand = "+" then
    (trec.txStart - ref.txStart, ref.txEnd - trec.txEnd)
  else
    (ref.txEnd - trec.txEnd, trec.txStart - ref.txStart)

/-- Modelled from the spec: the junction-comparison primitive
`compare_junctions` is an external collaborator
(`cupcake.cupcake.tofu.compare_junctions`, not part of this repository).
Following section 4.2 of the spec, with `internal_fuzzy_max_dist = 0` it
classifies the query/reference relationship as: "exact" when all internal
junctions are identical, "subset" when the query junctions are a contiguous
subsequence of the reference junctions, "partial" when the junction sets
overlap but neither is a clean subset (the source treats the three returns
"partial"/"concordant"/"super" by one identical branch, so they are lumped
into "partial" here), and "nomatch" when no junction is shared. -/
def compare_junctions (trec ref : genePredRecord) : String :=
  if trec.junctions = ref.junctions then "exact"
  else if trec.junctions <:+: ref.junctions then "subset"
  else if trec.junctions.any (fun j => decide (j ∈ ref.junctions)) then "partial"
  else "nomatch"

/-- `categorize_incomplete_matches(trec, ref)` (lines 1197-1226): subtype of an
incomplete splice match.  The `ref_exon_tree.find(e.start, e.end)` call on the
bx interval tree returns the reference exons strictly overlapping the query
exon. -/
def categorize_incomplete_matches (trec ref : genePredRecord) : String :=
  if trec.exons.any (fun e =>
      ((ref.exons.countP (fun re => decide (re.start < e.stop) && decide (e.start < re.stop))) > 1)) then
    "intron_retention"
  else
    let agree_front := trec.junctions.headD (0, 0) = ref.junctions.headD (0, 0)
    let agree_end := trec.junctions.getLastD (0, 0) = ref.junctions.getLastD (0, 0)
    if agree_front then
      if agree_end then "complete"
      else if trec.strand = "+" then "5prime_fragment" else "3prime_fragment"
    else
      if agree_end then
        if trec.strand = "+" then "3prime_fragment" else "5prime_fragment"
      else "internal_fragment"

/-- The fields of `myQueryTranscripts` (lines 244-351) that the classification
engine reads or writes.  "NA" becomes `none`.  The Python `AS_genes` set is a
deduplicated insertion-order list.  Report-only fields fed by external
collaborators (coverage, CAGE, polyA, ORF, RT-switching, intra-priming
percentages) are outside the classification core and omitted. -/
structure myQueryTranscripts where
  id : String
  tss_diff : Option Int
  tts_diff : Option Int
  num_exons : Nat
  length : Int
  str_class : String
  subtype : String
  genes : List String
  AS_genes : List String
  transcripts : List String
  refLen : Option Int
  refExons : Option Int
  refStart : Option Int
  refEnd : Option Int
  q_splicesite_hit : Int
  q_exon_overlap : Int
  tss_gene_diff : Option Int
  tts_gene_diff : Option Int
  chrom : String
  strand : String
deriving DecidableEq, Repr

namespace myQueryTranscripts

/-- `get_total_diff` (line 353): `abs(tss_diff) + abs(tts_diff)`.  Only called
when both fields are numeric; "NA" (which would raise in Python) defaults
to 0. -/
def get_total_diff (q : myQueryTranscripts) : Int :=
  |q.tss_diff.getD 0| + |q.tts_diff.getD 0|

/-- `modify` (line 356): install a new best reference match. -/
def modify (q : myQueryTranscripts) (ref_transcript ref_gene : String)
    (tss_diff tts_diff refLen : Option Int) (refExons : Option Int) :
    myQueryTranscripts :=
  { q with
    transcripts := [ref_transcript]
    genes := [ref_gene]
    tss_diff := tss_diff
    tts_diff := tts_diff
    refLen := refLen
    refExons := refExons }

end myQueryTranscripts

/-- Python `set.add` on a set modelled as an insertion-ordered list. -/
def setAdd (l : List String) (g : String) : List String :=
  if g ∈ l then l else l ++ [g]

/-- `cat_ranking` (lines 1259-1266). -/
def cat_ranking : String → Nat
  | "full-splice_match" => 5
  | "incomplete-splice_match" => 4
  | "anyKnownJunction" => 3
  | "anyKnownSpliceSite" => 2
  | "geneOverlap" => 1
  | _ => 0

/-- The blank `isoform_hit` built at lines 1244-1256 and rebuilt per candidate
gene at lines 1286-1298. -/
def blankHit (trec : genePredRecord) : myQueryTranscripts :=
  { id := trec.id
    tss_diff := none
    tts_diff := none
    num_exons := trec.exonCount
    length := trec.length
    str_class := ""
    subtype := "no_subcategory"
    genes := []
    AS_genes := []
    transcripts := []
    refLen := none
    refExons := none
    refStart := none
    refEnd := none
    q_splicesite_hit := 0
    q_exon_overlap := 0
    tss_gene_diff := none
    tts_gene_diff := none
    chrom := trec.chrom
    strand := trec.strand }

/-- Python `set.add` on a set modelled as an insertion-ordered duplicate-free
list. -/
def setAddP {α : Type} [DecidableEq α] (l : List α) (x : α) : List α :=
  if x ∈ l then l else l ++ [x]

/-- Insert `a` into `l` before the first element `b` with `le a b`.  Processing
the original list back to front (`pySort`) keeps elements that compare equal in
their original relative order, so for a total preorder comparator this
reproduces Python's stable `list.sort`. -/
def pyInsert {α : Type} (le : α → α → Bool) (a : α) : List α → List α
  | [] => [a]
  | b :: l => if le a b then a :: b :: l else b :: pyInsert le a l

/-- A stable sort (structurally recursive, hence computable by the kernel),
modelling Python's stable `list.sort` under a total preorder comparator. -/
def pySort {α : Type} (le : α → α → Bool) : List α → List α
  | [] => []
  | a :: l => pyInsert le a (pySort le l)

/-- The fresh `full-splice_match` hit the exact branch constructs
(lines 1371-1393). -/
def fsmHit (trec ref : genePredRecord) : myQueryTranscripts :=
  { blankHit trec with
    tss_diff := some (get_diff_tss_tts trec ref).1
    tts_diff := some (get_diff_tss_tts trec ref).2
    str_class := "full-splice_match"
    subtype := "multi-exon"
    genes := [ref.gene]
    transcripts := [ref.id]
    refLen := some ref.length
    refExons := some (ref.exonCount : Int)
    refStart := some ref.txStart
    refEnd := some ref.txEnd
    q_splicesite_hit := calc_splicesite_agreement trec.exons ref.exons
    q_exon_overlap := calc_exon_overlap trec.exons ref.exons }

/-- `processRef`: the body of the per-reference loop of the multi-exon branch
of `transcriptsKnownSpliceSites` (lines 1300-1547), as a state transformer on
the running per-gene `isoform_hit`.  Each replacement builds a fresh
`myQueryTranscripts` (so previously accumulated `AS_genes` are discarded),
exactly as the source constructs a new object. -/
def processRef (trec : genePredRecord) (ih : myQueryTranscripts)
    (ref : genePredRecord) : myQueryTranscripts :=
  if trec.strand ≠ ref.strand then
    { ih with AS_genes := setAddP ih.AS_genes ref.gene }
  else if ref.exonCount = 1 then
    if calc_exon_overlap trec.exons ref.exons > 0 ∧
        cat_ranking ih.str_class < cat_ranking "geneOverlap" then
      { blankHit trec with
        str_class := "geneOverlap"
        subtype := "mono-exon"
        genes := [ref.gene]
        transcripts := [ref.id]
        refLen := some ref.length
        refExons := some (ref.exonCount : Int)
        refStart := some ref.txStart
        refEnd := some ref.txEnd
        q_splicesite_hit := 0
        q_exon_overlap := calc_exon_overlap trec.exons ref.exons }
    else ih
  else
    let match_type := compare_junctions trec ref
    let d := get_diff_tss_tts trec ref
    if match_type = "exact" then
      if cat_ranking ih.str_class < cat_ranking "full-splice_match" ∨
          |d.1| + |d.2| < ih.get_total_diff then
        fsmHit trec ref
      else ih
    else if match_type = "subset" then
      if cat_ranking ih.str_class < cat_ranking "incomplete-splice_match" ∨
          (ih.str_class = "incomplete-splice_match" ∧
            |d.1| + |d.2| < ih.get_total_diff) then
        { blankHit trec with
          tss_diff := some d.1
          tts_diff := some d.2
          str_class := "incomplete-splice_match"
          subtype := categorize_incomplete_matches trec ref
          genes := [ref.gene]
          transcripts := [ref.id]
          refLen := some ref.length
          refExons := some (ref.exonCount : Int)
          refStart := some ref.txStart
          refEnd := some ref.txEnd
          q_splicesite_hit := calc_splicesite_agreement trec.exons ref.exons
          q_exon_overlap := calc_exon_overlap trec.exons ref.exons }
      else ih
    else if match_type = "partial" then
      let q_sp_hit := calc_splicesite_agreement trec.exons ref.exons
      let q_ex_overlap := calc_exon_overlap trec.exons ref.exons
      let q_exon_d := |(trec.exonCount : Int) - (ref.exonCount : Int)|
      if cat_ranking ih.str_class < cat_ranking "anyKnownJunction" ∨
          (ih.str_class = "anyKnownJunction" ∧ q_sp_hit > ih.q_splicesite_hit) ∨
          (ih.str_class = "anyKnownJunction" ∧ q_sp_hit = ih.q_splicesite_hit ∧
            q_ex_overlap > ih.q_exon_overlap) ∨
          (ih.str_class = "anyKnownJunction" ∧ q_sp_hit = ih.q_splicesite_hit ∧
            q_exon_d < |(trec.exonCount : Int) - ih.refExons.getD 0|) then
        { blankHit trec with
          str_class := "anyKnownJunction"
          genes := [ref.gene]
          transcripts := ["novel"]
          refLen := some ref.length
          refExons := some (ref.exonCount : Int)
          refStart := some ref.txStart
          refEnd := some ref.txEnd
          q_splicesite_hit := q_sp_hit
          q_exon_overlap := q_ex_overlap }
      else ih
    else
      let afterSplice :=
        if cat_ranking ih.str_class < cat_ranking "anyKnownSpliceSite" ∧
            calc_splicesite_agreement trec.exons ref.exons > 0 then
          { blankHit trec with
            str_class := "anyKnownSpliceSite"
            genes := [ref.gene]
            transcripts := ["novel"]
            refLen := some ref.length
            refExons := some (ref.exonCount : Int)
            refStart := some ref.txStart
            refEnd := some ref.txEnd
            q_splicesite_hit := calc_splicesite_agreement trec.exons ref.exons
            q_exon_overlap := calc_exon_overlap trec.exons ref.exons }
        else ih
      if afterSplice.str_class = "" then
        if cat_ranking afterSplice.str_class < cat_ranking "geneOverlap" ∧
            calc_exon_overlap trec.exons ref.exons > 0 then
          { blankHit trec with
            str_class := "geneOverlap"
            genes := [ref.gene]
            transcripts := ["novel"]
            refLen := some ref.length
            refExons := some (ref.exonCount : Int)
            refStart := some ref.txStart
            refEnd := some ref.txEnd
            q_splicesite_hit := calc_splicesite_agreement trec.exons ref.exons
            q_exon_overlap := calc_exon_overlap trec.exons ref.exons }
        else afterSplice
      else afterSplice

/-- The per-gene best hit: the fold of `processRef` over that gene's candidate
references starting from the fresh `isoform_hit` of lines 1286-1298. -/
def geneFold (trec : genePredRecord) (refs : List genePredRecord) :
    myQueryTranscripts :=
  refs.foldl (processRef trec) (blankHit trec)

/-- Modelled from the spec: the per-chromosome interval trees are external
`bx.intervals` structures; section 4.2 documents their query as returning the
reference records of the query's chromosome whose span overlaps the query
span.  The dict-of-trees becomes a flat list filtered by chromosome. -/
def treeFind (refs : List genePredRecord) (chrom : String) (s e : Int) :
    List genePredRecord :=
  refs.filter (fun r => r.chrom == chrom && decide (r.txStart < e) && decide (s < r.txEnd))

/-- The gene keys of `hits_by_gene` (a `defaultdict(list)`, lines 1272-1280):
first-occurrence order. -/
def geneKeys (hits : List genePredRecord) : List String :=
  hits.foldl (fun acc r => setAddP acc r.gene) []

/-- The `geneHitTuple` named tuple of line 1554. -/
structure geneHitTuple where
  score : Nat
  rStart : Option Int
  rEnd : Option Int
  rGene : String
  iso_hit : myQueryTranscripts
deriving DecidableEq, Repr

/-- The composite secondary sort key of lines 1575-1588, with Python float
arithmetic modelled as exact rationals.  The divisors are positive in every
reachable state (the query has exons; `rStart < rEnd` for every positive-score
hit). -/
def compositeKey (trec : genePredRecord) (t : geneHitTuple) : ℚ :=
  (t.iso_hit.q_splicesite_hit : ℚ) +
    (t.iso_hit.q_exon_overlap : ℚ) /
      ((trec.exons.foldl (fun acc e => acc + (e.stop - e.start)) 0 : Int) : ℚ) +
    ((calc_overlap t.rStart t.rEnd (some trec.txStart) (some trec.txEnd) : Int) : ℚ) /
      ((t.rEnd.getD 0 - t.rStart.getD 0 : Int) : ℚ) -
    (|(trec.exonCount : Int) - t.iso_hit.refExons.getD 0| : ℚ)

/-- The comparator realizing `best_by_gene.sort(key=..., reverse=True)`:
`t` may precede `u` iff `t`'s (score, composite) key is lexicographically at
least `u`'s.  A stable merge sort under this relation reproduces Python's
stable descending sort. -/
def tupleLe (trec : genePredRecord) (t u : geneHitTuple) : Bool :=
  decide (u.score < t.score) ||
    (u.score == t.score && decide (compositeKey trec u ≤ compositeKey trec t))

/-- Python `min` on coordinates that are "NA"-free in every reachable call
(both arguments come from positive-score hits). -/
def naMin (a b : Option Int) : Option Int :=
  match a, b with
  | some x, some y => some (min x y)
  | _, _ => none

/-- Python `max`, as `naMin`. -/
def naMax (a b : Option Int) : Option Int :=
  match a, b with
  | some x, some y => some (max x y)
  | _, _ => none

/-- The cross-gene merge loop of lines 1589-1596: walk the sorted tail,
absorbing any gene whose reference span does not overlap the running span by
appending its name to the chosen hit's gene list. -/
def mergeAcross (ih : myQueryTranscripts) (cur_start cur_end : Option Int) :
    List geneHitTuple → myQueryTranscripts
  | [] => ih
  | t :: ts =>
    if t.score = 0 then ih
    else if calc_overlap cur_start cur_end t.rStart t.rEnd ≤ 0 then
      mergeAcross { ih with genes := ih.genes ++ [t.rGene] }
        (naMin cur_start t.rStart) (naMax cur_end t.rEnd) ts
    else mergeAcross ih cur_start cur_end ts

/-- The per-gene begin/end coordinate sets of `known_5_3_by_gene`
(insertion-ordered duplicate-free lists). -/
structure beginEnds where
  begins : List Int
  ends : List Int
deriving DecidableEq, Repr

/-- Lookup in `start_ends_by_gene`; a missing gene yields the empty entry
(matching the `defaultdict` the structure is built as). -/
def lookupSebg (sebg : List (String × beginEnds)) (g : String) : beginEnds :=
  ((sebg.find? (fun p => p.1 == g)).map Prod.snd).getD { begins := [], ends := [] }

/-- The inner minimization of `get_gene_diff_tss_tts` (lines 1171-1180):
running nearest signed difference, strict `<` on absolute values so the first
encountered minimizer is kept; `none` is the initial `float("inf")`. -/
def nearestDiffFold (pos : Int) (xs : List Int) (init : Option Int) : Option Int :=
  xs.foldl
    (fun acc x =>
      match acc with
      | none => some (pos - x)
      | some c => if |pos - x| < |c| then some (pos - x) else acc)
    init

/-- `get_gene_diff_tss_tts` (lines 1168-1195).  On the minus strand the source
guards `tss_gene_diff` by `nearest_start_diff` being finite while assigning the
negated `nearest_end_diff` (and symmetrically); since a gene entry records
begins and ends together, the two finiteness conditions coincide in every
reachable state and the embedding requires both. -/
def get_gene_diff_tss_tts (sebg : List (String × beginEnds))
    (trec : genePredRecord) (ih : myQueryTranscripts) : myQueryTranscripts :=
  let nstart := ih.genes.foldl
    (fun acc g => nearestDiffFold trec.txStart (lookupSebg sebg g).begins acc) none
  let nend := ih.genes.foldl
    (fun acc g => nearestDiffFold trec.txEnd (lookupSebg sebg g).ends acc) none
  if trec.strand = "+" then
    { ih with tss_gene_diff := nstart, tts_gene_diff := nend }
  else
    { ih with
      tss_gene_diff :=
        match nstart, nend with
        | some _, some v => some (-v)
        | _, _ => none
      tts_gene_diff :=
        match nend, nstart with
        | some _, some v => some (-v)
        | _, _ => none }

/-- Python `set < set`: strict subset, the comparison Timsort applies to the
`known_5_3_by_gene[x]["begin"]` sort keys of line 1685. -/
def pySetLt (a b : List Int) : Bool :=
  a.all (fun x => decide (x ∈ b)) && b.any (fun x => decide (x ∉ a))

/-- `isoform_hit.genes.sort(key=lambda x: start_ends_by_gene[x]["begin"])`
(line 1685): a stable sort whose keys are Python sets compared by strict
subset.  A stable merge sort under the negated reversed comparison reproduces
Python's stable ascending sort whenever the keys are totally ordered. -/
def sortGenesBySebgBegin (sebg : List (String × beginEnds))
    (genes : List String) : List String :=
  pySort (fun g1 g2 =>
    ! pySetLt (lookupSebg sebg g2).begins (lookupSebg sebg g1).begins) genes

/-- Lines 1684-1686: the common epilogue for every query that falls through to
the end of `transcriptsKnownSpliceSites`. -/
def finalizeHit (sebg : List (String × beginEnds)) (trec : genePredRecord)
    (ih : myQueryTranscripts) : myQueryTranscripts :=
  let m := get_gene_diff_tss_tts sebg trec ih
  { m with genes := sortGenesBySebgBegin sebg m.genes }

/-- The body of the single-exon-query loop over single-exon references
(lines 1600-1630). -/
def monoExon1Step (trec : genePredRecord) (ih : myQueryTranscripts)
    (ref : genePredRecord) : myQueryTranscripts :=
  if ref.strand ≠ trec.strand then
    { ih with AS_genes := setAddP ih.AS_genes ref.gene }
  else
    let d := get_diff_tss_tts trec ref
    if ih.str_class = "" then
      { blankHit trec with
        tss_diff := some d.1
        tts_diff := some d.2
        str_class := "full-splice_match"
        subtype := "mono-exon"
        genes := [ref.gene]
        transcripts := [ref.id]
        refLen := some ref.length
        refExons := some (ref.exonCount : Int) }
    else if |d.1| + |d.2| < ih.get_total_diff then
      ih.modify ref.id ref.gene (some d.1) (some d.2) (some ref.length)
        (some (ref.exonCount : Int))
    else ih

/-- The single-exon-query loop over multi-exon references (lines 1632-1682);
`Sum.inl` carries the early `return` value of lines 1661 and 1679 (already
passed through `get_gene_diff_tss_tts`, skipping the epilogue's gene sort),
`Sum.inr` the fall-through state. -/
def monoExonNLoop (sebg : List (String × beginEnds)) (trec : genePredRecord) :
    myQueryTranscripts → List genePredRecord →
      myQueryTranscripts ⊕ myQueryTranscripts
  | ih, [] => Sum.inr ih
  | ih, ref :: rest =>
    if calc_exon_overlap trec.exons ref.exons = 0 then
      monoExonNLoop sebg trec ih rest
    else if ref.strand ≠ trec.strand then
      monoExonNLoop sebg trec { ih with AS_genes := setAddP ih.AS_genes ref.gene } rest
    else
      let d := get_diff_tss_tts trec ref
      if ref.exons.any (fun e =>
          decide (e.start ≤ trec.txStart) && decide (trec.txStart < trec.txEnd) &&
            decide (trec.txEnd ≤ e.stop)) then
        let ih1 := { ih with
          str_class := "incomplete-splice_match", subtype := "mono-exon" }
        Sum.inl (get_gene_diff_tss_tts sebg trec
          (ih1.modify ref.id ref.gene (some d.1) (some d.2) (some ref.length)
            (some (ref.exonCount : Int))))
      else if decide (ref.txStart ≤ trec.txStart) && decide (trec.txStart < trec.txEnd) &&
          decide (trec.txEnd ≤ ref.txEnd) then
        let subtype :=
          if ref.junctions.any (fun j =>
              decide (trec.txStart < j.1) && decide (j.1 < j.2) &&
                decide (j.2 < trec.txEnd)) then
            "mono-exon_by_intron_retention"
          else "mono-exon"
        let ih1 := { ih with str_class := "novel_in_catalog", subtype := subtype }
        Sum.inl (get_gene_diff_tss_tts sebg trec
          (ih1.modify "novel" ref.gene none none (some ref.length)
            (some (ref.exonCount : Int))))
      else
        monoExonNLoop sebg trec { ih with genes := ih.genes ++ [ref.gene] } rest

/-- The two interval-tree queries of lines 1275-1280 concatenated: multi-exon
hits first, then single-exon hits. -/
def hitsOf (refs_1exon_by_chr refs_exons_by_chr : List genePredRecord)
    (trec : genePredRecord) : List genePredRecord :=
  treeFind refs_exons_by_chr trec.chrom trec.txStart trec.txEnd ++
    treeFind refs_1exon_by_chr trec.chrom trec.txStart trec.txEnd

/-- The `best_by_gene` tuples of lines 1554-1566: one `geneHitTuple` per
candidate gene (in first-occurrence order), holding the per-gene fold. -/
def geneTuples (trec : genePredRecord) (hits : List genePredRecord) :
    List geneHitTuple :=
  (geneKeys hits).map (fun g =>
    let best := geneFold trec (hits.filter (fun r => r.gene == g))
    ({ score := cat_ranking best.str_class
       rStart := best.refStart
       rEnd := best.refEnd
       rGene := g
       iso_hit := best } : geneHitTuple))

/-- The multi-exon branch of `transcriptsKnownSpliceSites` (lines 1270-1596
plus the epilogue), applied to the interval-tree hits: build the per-gene
tuples, drop zero scores, sort by (rank, composite) descending, take the top
gene and absorb non-overlapping secondary genes. -/
def multiExonHit (start_ends_by_gene : List (String × beginEnds))
    (trec : genePredRecord) (hits : List genePredRecord) : myQueryTranscripts :=
  if hits.isEmpty then blankHit trec
  else
    match (geneTuples trec hits).filter (fun t => decide (0 < t.score)) with
    | [] =>
      (((geneTuples trec hits).getLast?).map geneHitTuple.iso_hit).getD
        (blankHit trec)
    | p :: ps =>
      let sorted := pySort (tupleLe trec) (p :: ps)
      let first := sorted.headD p
      finalizeHit start_ends_by_gene trec
        (mergeAcross first.iso_hit first.rStart first.rEnd sorted.tail)

/-- `transcriptsKnownSpliceSites` (lines 1099-1686): the per-query best-match
search.  The intra-priming fields computed from the genome at lines 1230-1242
feed report-only attributes and are outside the embedded state (their only
failure mode, indexing an empty exon list, is captured by `classifyStep`). -/
def transcriptsKnownSpliceSites (refs_1exon_by_chr refs_exons_by_chr : List genePredRecord)
    (start_ends_by_gene : List (String × beginEnds)) (trec : genePredRecord) :
    myQueryTranscripts :=
  if 2 ≤ trec.exonCount then
    multiExonHit start_ends_by_gene trec
      (hitsOf refs_1exon_by_chr refs_exons_by_chr trec)
  else
    let ih := (treeFind refs_1exon_by_chr trec.chrom trec.txStart trec.txEnd).foldl
      (monoExon1Step trec) (blankHit trec)
    if ih.str_class = "" then
      match monoExonNLoop start_ends_by_gene trec ih
          (treeFind refs_exons_by_chr trec.chrom trec.txStart trec.txEnd) with
      | Sum.inl early => early
      | Sum.inr ih2 => finalizeHit start_ends_by_gene trec ih2
    else finalizeHit start_ends_by_gene trec ih

/-- The classification entry for one query, with the source's only per-record
failure made explicit: lines 1230-1240 index `exonEnds[-1]` (plus strand) or
`exonStarts[0]` (otherwise) before any matching, raising `IndexError` on an
exon-less record; every later step of the search is total. -/
def classifyStep (refs_1exon_by_chr refs_exons_by_chr : List genePredRecord)
    (start_ends_by_gene : List (String × beginEnds)) (trec : genePredRecord) :
    Except String myQueryTranscripts :=
  if trec.strand = "+" then
    match trec.exonEnds.getLast? with
    | none => Except.error "IndexError: list index out of range"
    | some _ => Except.ok (transcriptsKnownSpliceSites refs_1exon_by_chr
        refs_exons_by_chr start_ends_by_gene trec)
  else
    match trec.exonStarts.head? with
    | none => Except.error "IndexError: list index out of range"
    | some _ => Except.ok (transcriptsKnownSpliceSites refs_1exon_by_chr
        refs_exons_by_chr start_ends_by_gene trec)

/-- The per-chromosome junction sets of `junctions_by_chr` (lines 874-876),
modelled as insertion-ordered duplicate-free lists until the final sort. -/
structure chrJunctions where
  donors : List Int
  acceptors : List Int
  da_pairs : List (Int × Int)
deriving DecidableEq, Repr

/-- The five structures returned by `reference_parser` (lines 917-923); the
two interval-tree dicts are flat record lists (see `treeFind`). -/
structure refIndex where
  refs_1exon_by_chr : List genePredRecord
  refs_exons_by_chr : List genePredRecord
  junctions_by_chr : List (String × chrJunctions)
  junctions_by_gene : List (String × List (Int × Int))
  known_5_3_by_gene : List (String × beginEnds)
deriving DecidableEq, Repr

/-- `defaultdict` update of a per-chromosome entry: apply `f` to the existing
entry in place, or append a fresh entry (Python dicts keep insertion order,
with one entry per key). -/
def updChr (c : String) (f : chrJunctions → chrJunctions) :
    List (String × chrJunctions) → List (String × chrJunctions)
  | [] => [(c, f { donors := [], acceptors := [], da_pairs := [] })]
  | p :: t => if p.1 = c then (p.1, f p.2) :: t else p :: updChr c f t

/-- `defaultdict(set)` update of a per-gene junction entry. -/
def updGeneJ (g : String) (da : Int × Int) :
    List (String × List (Int × Int)) → List (String × List (Int × Int))
  | [] => [(g, [da])]
  | p :: t => if p.1 = g then (p.1, setAddP p.2 da) :: t else p :: updGeneJ g da t

/-- `known_5_3_by_gene[r.gene]["begin"].add(txStart)` and the matching end
update (lines 887-888 and 897-898). -/
def updSebg (g : String) (b e : Int) :
    List (String × beginEnds) → List (String × beginEnds)
  | [] => [(g, { begins := [b], ends := [e] })]
  | p :: t =>
    if p.1 = g then
      (p.1, { begins := setAddP p.2.begins b, ends := setAddP p.2.ends e }) :: t
    else p :: updSebg g b e t

/-- The per-record body of the reference parsing loop (lines 882-898). -/
def refStep (is_fusion : Bool) (min_ref_len : Int) (acc : refIndex)
    (r : genePredRecord) : refIndex :=
  if r.length < min_ref_len ∧ ¬ is_fusion then acc
  else if r.exonCount = 1 then
    { acc with
      refs_1exon_by_chr := acc.refs_1exon_by_chr ++ [r]
      known_5_3_by_gene := updSebg r.gene r.txStart r.txEnd acc.known_5_3_by_gene }
  else
    { acc with
      refs_exons_by_chr := acc.refs_exons_by_chr ++ [r]
      junctions_by_chr := r.junctions.foldl
        (fun j da => updChr r.chrom (fun cj =>
          { donors := setAddP cj.donors da.1
            acceptors := setAddP cj.acceptors da.2
            da_pairs := setAddP cj.da_pairs da }) j)
        acc.junctions_by_chr
      junctions_by_gene := r.junctions.foldl
        (fun jg da => updGeneJ r.gene da jg) acc.junctions_by_gene
      known_5_3_by_gene := updSebg r.gene r.txStart r.txEnd acc.known_5_3_by_gene }

/-- Python tuple `<` on junction pairs, the order `da_pairs` is sorted by. -/
def pairLtBool (a b : Int × Int) : Bool :=
  decide (a.1 < b.1) || (a.1 == b.1 && decide (a.2 < b.2))

/-- Python tuple `<=`, the comparator of `da_pairs.sort()`. -/
def pairLeBool (a b : Int × Int) : Bool :=
  pairLtBool a b || a == b

/-- `reference_parser` (lines 817-923), restricted to the index construction
performed on the already-parsed records (GTF conversion and chromosome sanity
warnings are external concerns): filter by `min_ref_len` unless fusion mode,
dispatch on the exon count, then sort the per-chromosome donor, acceptor and
pair collections (lines 908-915). -/
def referenceParser (is_fusion : Bool) (min_ref_len : Int)
    (recs : List genePredRecord) : refIndex :=
  let acc := recs.foldl (refStep is_fusion min_ref_len)
    { refs_1exon_by_chr := []
      refs_exons_by_chr := []
      junctions_by_chr := []
      junctions_by_gene := []
      known_5_3_by_gene := [] }
  { acc with
    junctions_by_chr := acc.junctions_by_chr.map (fun p =>
      (p.1,
        { donors := pySort (fun a b => decide (a ≤ b)) p.2.donors
          acceptors := pySort (fun a b => decide (a ≤ b)) p.2.acceptors
          da_pairs := pySort pairLeBool p.2.da_pairs })) }

/-- Lookup of `junctions_by_chr[chrom]`; the empty entry models the
`defaultdict` default (the classification code only reads chromosomes that
are present). -/
def lookupJbc (jbc : List (String × chrJunctions)) (c : String) : chrJunctions :=
  ((jbc.find? (fun p => p.1 == c)).map Prod.snd).getD
    { donors := [], acceptors := [], da_pairs := [] }

/-- Lookup of `junctions_by_gene[gene]`. -/
def lookupGeneJ (jg : List (String × List (Int × Int))) (g : String) :
    List (Int × Int) :=
  ((jg.find? (fun p => p.1 == g)).map Prod.snd).getD []

/-- `bisect.bisect_left` on a pair list: for a sorted list, the number of
elements strictly below the probe in Python tuple order. -/
def bisect_left_pairs (lst : List (Int × Int)) (x : Int × Int) : Nat :=
  (lst.takeWhile (fun p => pairLtBool p x)).length

/-- `bisect.bisect_left` on an integer list (sorted in every call site). -/
def bisect_left_int (lst : List Int) (x : Int) : Nat :=
  (lst.takeWhile (fun v => decide (v < x))).length

/-- `has_intron_retention` (lines 1697-1710): some query exon strictly
contains the junction found at its bisection point. -/
def has_intron_retention (junctions_by_chr : List (String × chrJunctions))
    (trec : genePredRecord) : Bool :=
  trec.exons.any (fun e =>
    let dap := (lookupJbc junctions_by_chr trec.chrom).da_pairs
    match dap.drop (bisect_left_pairs dap (e.start, e.stop)) with
    | [] => false
    | p :: _ =>
      decide (e.start ≤ p.1) && decide (p.1 < p.2) && decide (p.2 < e.stop))

/-- Python `==` between a junction tuple and a `set` object: always `False`
(no cross-type equality).  This is what `all_ref_junctions.count(junc)`
evaluates element-wise at line 1760, because the `itertools.chain(generator)`
call of lines 1750-1756 chains a single generator and therefore yields the
per-gene junction *sets* themselves rather than their members. -/
def pyTupleEqSet (_ : Int × Int) (_ : List (Int × Int)) : Bool := false

/-- `novelIsoformsKnownGenes` (lines 1689-1773).  `list(set(genes))` is
modelled as first-occurrence deduplication (the branch taken depends only on
the number of distinct genes, and the single-gene lookup is unambiguous).
`max` of the junction-hit counts starts from 0 where Python would raise on a
junction-less query, which cannot reach this function. -/
def novelIsoformsKnownGenes (isoforms_hit : myQueryTranscripts)
    (trec : genePredRecord) (junctions_by_chr : List (String × chrJunctions))
    (junctions_by_gene : List (String × List (Int × Int))) : myQueryTranscripts :=
  let ref_genes := isoforms_hit.genes.foldl setAddP []
  let ih := { isoforms_hit with transcripts := ["novel"] }
  let ih :=
    if ref_genes.length = 1 then
      let ref_gene_junctions := lookupGeneJ junctions_by_gene (ref_genes.headD "")
      let cj := lookupJbc junctions_by_chr trec.chrom
      let all_junctions_known := trec.junctions.all (fun j =>
        decide (j.1 ∈ cj.donors) && decide (j.2 ∈ cj.acceptors))
      let all_junctions_in_hit_ref := trec.junctions.all (fun j =>
        decide (j ∈ ref_gene_junctions))
      if all_junctions_known then
        if all_junctions_in_hit_ref then
          { ih with str_class := "novel_in_catalog"
                    subtype := "combination_of_known_junctions" }
        else
          { ih with str_class := "novel_in_catalog"
                    subtype := "combination_of_known_splicesites" }
      else
        { ih with str_class := "novel_not_in_catalog"
                  subtype := "at_least_one_novel_splicesite" }
    else
      let all_ref_junctions : List (List (Int × Int)) :=
        (ref_genes.filter (fun g => junctions_by_gene.any (fun p => p.1 == g))).map
          (fun g => lookupGeneJ junctions_by_gene g)
      let junction_ref_hit := trec.junctions.map (fun j =>
        all_ref_junctions.countP (fun s => pyTupleEqSet j s))
      if junction_ref_hit.foldl max 0 > 1 then
        { ih with str_class := "moreJunctions" }
      else
        { ih with str_class := "fusion"
                  subtype := if trec.exonCount = 1 then "mono-exon" else "multi-exon" }
  if has_intron_retention junctions_by_chr trec then
    { ih with subtype := "intron_retention" }
  else ih

/-- The `while` scan of lines 1798-1802, starting from the bisection point:
advance while the pair's donor is at most `txStart`, declaring `genic_intron`
when `da_pairs[i][0] <= txStart <= txStart <= da_pairs[i][1]` — the doubled
`trec.txStart` reproduces the source text verbatim (`txEnd` is never
consulted). -/
def genicIntronScan (txStart : Int) : List (Int × Int) → Bool
  | [] => false
  | p :: rest =>
    if p.1 ≤ txStart then
      if decide (p.1 ≤ txStart) && decide (txStart ≤ txStart) && decide (txStart ≤ p.2) then
        true
      else genicIntronScan txStart rest
    else false

/-- `associationOverlapping` (lines 1776-1819). -/
def associationOverlapping (isoforms_hit : myQueryTranscripts)
    (trec : genePredRecord) (junctions_by_chr : List (String × chrJunctions)) :
    myQueryTranscripts :=
  let ih := { isoforms_hit with
    str_class := "intergenic"
    transcripts := ["novel"]
    subtype := if trec.exonCount = 1 then "mono-exon" else "multi-exon" }
  if ih.genes.length = 0 then
    if ih.AS_genes.length = 0 ∧ junctions_by_chr.any (fun p => p.1 == trec.chrom) then
      let dap := (lookupJbc junctions_by_chr trec.chrom).da_pairs
      if genicIntronScan trec.txStart
          (dap.drop (bisect_left_pairs dap (trec.txStart, trec.txEnd))) then
        { ih with str_class := "genic_intron" }
      else ih
    else
      { ih with
        str_class := "antisense"
        genes := ih.AS_genes.map (fun g => "novelGene_" ++ g ++ "_AS") }
  else { ih with str_class := "genic" }

/-- `find_closest_in_list` (lines 1847-1858): the signed offset from `pos` to
the nearest member of the (sorted, nonempty in every call) list, preferring
the left neighbour on ties. -/
def find_closest_in_list (lst : List Int) (pos : Int) : Int :=
  let i := bisect_left_int lst pos
  if i = 0 then lst.headD 0 - pos
  else if i = lst.length then lst.getLastD 0 - pos
  else
    let a := lst.getD (i - 1) 0 - pos
    let b := lst.getD i 0 - pos
    if |a| < |b| then a else b

/-- One output row of `write_junctionInfo` (lines 1860-1943), restricted to
the classification fields; splice-site motif, coverage, indel and phyloP
columns are populated from external collaborators (genome sequence, STAR
output, alignment indels) and are outside the embedded core. -/
structure junctionRow where
  junction_category : String
  start_site_category : String
  end_site_category : String
  diff_to_Ref_start_site : Int
  diff_to_Ref_end_site : Int
  bite_junction : String
deriving DecidableEq, Repr

/-- The per-junction record computation of lines 1865-1930. -/
def write_junctionRow (junctions_by_chr : List (String × chrJunctions))
    (trec : genePredRecord) (j : Int × Int) : junctionRow :=
  let cj := lookupJbc junctions_by_chr trec.chrom
  let min_diff_s := - find_closest_in_list cj.donors j.1
  let min_diff_e := find_closest_in_list cj.acceptors j.2
  { junction_category := if j ∈ cj.da_pairs then "known" else "novel"
    start_site_category := if min_diff_s = 0 then "known" else "novel"
    end_site_category := if min_diff_e = 0 then "known" else "novel"
    diff_to_Ref_start_site := min_diff_s
    diff_to_Ref_end_site := min_diff_e
    bite_junction :=
      if (min_diff_s < 0 ∨ min_diff_e < 0) ∧ ¬ (min_diff_s > 0 ∨ min_diff_e > 0) then
        "TRUE"
      else "FALSE" }

/-- `write_junctionInfo` (lines 1822-1949): nothing is emitted when the query
chromosome has no reference junctions, otherwise one row per query junction
in 5-prime-to-3-prime genomic order. -/
def write_junctionInfo (junctions_by_chr : List (String × chrJunctions))
    (trec : genePredRecord) : List junctionRow :=
  if junctions_by_chr.any (fun p => p.1 == trec.chrom) then
    trec.junctions.map (write_junctionRow junctions_by_chr trec)
  else []

/-! ### Verification-layer definitions (not part of the source embedding) -/

/-- The category strings the per-gene fold can produce. -/
def clsOK (s : String) : Prop :=
  s = "" ∨ s = "geneOverlap" ∨ s = "anyKnownSpliceSite" ∨
    s = "anyKnownJunction" ∨ s = "incomplete-splice_match" ∨
    s = "full-splice_match"

/-- The best category rank a single candidate reference can impose on the
per-gene fold, read off the branch structure of `processRef`. -/
def candRank (trec ref : genePredRecord) : Nat :=
  if trec.strand ≠ ref.strand then 0
  else if ref.exonCount = 1 then
    if calc_exon_overlap trec.exons ref.exons > 0 then 1 else 0
  else if compare_junctions trec ref = "exact" then 5
  else if compare_junctions trec ref = "subset" then 4
  else if compare_junctions trec ref = "partial" then 3
  else if calc_splicesite_agreement trec.exons ref.exons > 0 then 2
  else if calc_exon_overlap trec.exons ref.exons > 0 then 1
  else 0

/-- Maximum of a list of ranks. -/
def natSup (l : List Nat) : Nat := l.foldl max 0

/-- Inverse of `cat_ranking` on the reachable class strings. -/
def rankClass : Nat → String
  | 5 => "full-splice_match"
  | 4 => "incomplete-splice_match"
  | 3 => "anyKnownJunction"
  | 2 => "anyKnownSpliceSite"
  | 1 => "geneOverlap"
  | _ => ""

/-- A same-strand multi-exon reference whose junction chain equals the
query's: exactly the candidates the exact branch (lines 1360-1393) accepts. -/
def IsExactCand (trec ref : genePredRecord) : Prop :=
  ref.strand = trec.strand ∧ ref.exonCount ≠ 1 ∧ trec.junctions = ref.junctions

instance (trec ref : genePredRecord) : Decidable (IsExactCand trec ref) := by
  unfold IsExactCand
  infer_instance

/-- `abs(diff_tss) + abs(diff_tts)` of a candidate, the exact-match tie-break
quantity. -/
def totalD (trec ref : genePredRecord) : Int :=
  |(get_diff_tss_tts trec ref).1| + |(get_diff_tss_tts trec ref).2|

/-- The running per-gene state after at least one exact candidate has been
seen: a full-splice match recording some exact candidate whose end-distance
sum is minimal among the exact candidates seen so far. -/
def ExactBest (trec : genePredRecord) (seen : List genePredRecord)
    (ih : myQueryTranscripts) : Prop :=
  ih.str_class = "full-splice_match" ∧
  ∃ r0, r0 ∈ seen ∧ IsExactCand trec r0 ∧
    ih.transcripts = [r0.id] ∧ ih.genes = [r0.gene] ∧
    ih.tss_diff = some (get_diff_tss_tts trec r0).1 ∧
    ih.tts_diff = some (get_diff_tss_tts trec r0).2 ∧
    ∀ r, r ∈ seen → IsExactCand trec r → totalD trec r0 ≤ totalD trec r

/-- The per-gene fold invariant: the class is reachable; once an exact
candidate has been seen the state is an `ExactBest`; before any exact
candidate the class is below `full-splice_match`. -/
def FoldInv (trec : genePredRecord) (seen : List genePredRecord)
    (ih : myQueryTranscripts) : Prop :=
  clsOK ih.str_class ∧
  ((∃ r, r ∈ seen ∧ IsExactCand trec r) → ExactBest trec seen ih) ∧
  ((∀ r, r ∈ seen → ¬ IsExactCand trec r) → ih.str_class ≠ "full-splice_match")

/-! Concrete instances used by the claim-level evaluations below. -/

/-- Reference transcript of gene `G`, exons `[(100,200),(300,400)]`. -/
def refG : genePredRecord :=
  { id := "T1", chrom := "c1", strand := "+", txStart := 100, txEnd := 400
    exonCount := 2, exonStarts := [100, 300], exonEnds := [200, 400], gene := "G" }

/-- Query with exons `[(100,200),(300,450)]`: junction-identical to `refG`
with a 3-prime extension. -/
def qC6 : genePredRecord :=
  { id := "Q", chrom := "c1", strand := "+", txStart := 100, txEnd := 450
    exonCount := 2, exonStarts := [100, 300], exonEnds := [200, 450], gene := "" }

/-- `start_ends_by_gene` for the single gene `G`. -/
def sebgG : List (String × beginEnds) :=
  [("G", { begins := [100], ends := [400] })]

/-- Two reference transcripts of gene `G` that are exact-scoring ties for
`qTie` and differ only in their id. -/
def rTieA : genePredRecord :=
  { id := "R1", chrom := "c1", strand := "+", txStart := 0, txEnd := 20
    exonCount := 2, exonStarts := [0, 12], exonEnds := [8, 20], gene := "G" }

/-- The second of the tied references. -/
def rTieB : genePredRecord := { rTieA with id := "R2" }

/-- A query junction-identical and end-identical to both tied references. -/
def qTie : genePredRecord :=
  { id := "Q", chrom := "c1", strand := "+", txStart := 0, txEnd := 20
    exonCount := 2, exonStarts := [0, 12], exonEnds := [8, 20], gene := "" }

/-- `start_ends_by_gene` for the tie scenario. -/
def sebgTie : List (String × beginEnds) :=
  [("G", { begins := [0], ends := [20] })]

/-- Multi-exon query whose single junction `(200,300)` is a junction of both
implicated genes. -/
def qFus : genePredRecord :=
  { id := "QF", chrom := "c1", strand := "+", txStart := 100, txEnd := 320
    exonCount := 2, exonStarts := [100, 300], exonEnds := [200, 320], gene := "" }

/-- Per-gene junction sets: both `G1` and `G2` own the junction `(200,300)`. -/
def jbgFus : List (String × List (Int × Int)) :=
  [("G1", [(200, 300)]), ("G2", [(200, 300)])]

/-- Per-chromosome junction sets for the fusion scenario. -/
def jbcFus : List (String × chrJunctions) :=
  [("c1", { donors := [200], acceptors := [300], da_pairs := [(200, 300)] })]

/-- The refinement input: a junction-level hit implicating the two genes. -/
def hitFus : myQueryTranscripts :=
  { blankHit qFus with genes := ["G1", "G2"], str_class := "anyKnownJunction" }

/-- Single-exon query spanning `[200,300)`, strictly inside the known intron
`(100,500)`. -/
def qIntron : genePredRecord :=
  { id := "QI", chrom := "c1", strand := "+", txStart := 200, txEnd := 300
    exonCount := 1, exonStarts := [200], exonEnds := [300], gene := "" }

/-- Per-chromosome junction sets containing only the intron `(100,500)`. -/
def jbcIntron : List (String × chrJunctions) :=
  [("c1", { donors := [100], acceptors := [500], da_pairs := [(100, 500)] })]

/-- Query whose junction `(100,200)` sits 3 bases left of the only known
donor and 2 bases right of the only known acceptor. -/
def qBite : genePredRecord :=
  { id := "QB", chrom := "c1", strand := "+", txStart := 50, txEnd := 300
    exonCount := 2, exonStarts := [50, 200], exonEnds := [100, 300], gene := "" }

/-- Reference junctions for the bite scenario: donor 103, acceptor 198. -/
def jbcBite : List (String × chrJunctions) :=
  [("c1", { donors := [103], acceptors := [198], da_pairs := [(103, 198)] })]

/-- A record with non-monotonic exon coordinates (second exon left of the
first). -/
def qNonMono : genePredRecord :=
  { id := "QN", chrom := "cX", strand := "+", txStart := 100, txEnd := 400
    exonCount := 2, exonStarts := [300, 100], exonEnds := [400, 200], gene := "" }

/-- A record with zero exons. -/
def qZeroExon : genePredRecord :=
  { id := "QZ", chrom := "cX", strand := "+", txStart := 0, txEnd := 0
    exonCount := 0, exonStarts := [], exonEnds := [], gene := "" }

/-- A short (length 90) single-exon reference and a long (length 300)
two-exon reference, for the length-filter scenario. -/
def rShort : genePredRecord :=
  { id := "S1", chrom := "c1", strand := "+", txStart := 10, txEnd := 100
    exonCount := 1, exonStarts := [10], exonEnds := [100], gene := "GS" }

/-- The long reference of the length-filter scenario. -/
def rLong : genePredRecord :=
  { id := "L1", chrom := "c1", strand := "+", txStart := 1000, txEnd := 1400
    exonCount := 2, exonStarts := [1000, 1300], exonEnds := [1200, 1400], gene := "GL" }

/-! ### General lemmas about the embedded auxiliary structures -/

theorem mem_pyInsert {α : Type} (le : α → α → Bool) (a x : α) (l : List α) :
    x ∈ pyInsert le a l ↔ x = a ∨ x ∈ l := by
  induction l with
  | nil => simp [pyInsert]
  | cons b t ih =>
    simp only [pyInsert]
    split
    · simp [List.mem_cons]
    · simp [List.mem_cons, ih]
      tauto

theorem pyInsert_perm {α : Type} (le : α → α → Bool) (a : α) (l : List α) :
    List.Perm (pyInsert le a l) (a :: l) := by
  induction l with
  | nil => simp [pyInsert]
  | cons b t ih =>
    simp only [pyInsert]
    split
    · exact List.Perm.refl _
    · exact (ih.cons b).trans (List.Perm.swap a b t)

theorem pySort_perm {α : Type} (le : α → α → Bool) (l : List α) :
    List.Perm (pySort le l) l := by
  induction l with
  | nil => simp [pySort]
  | cons a t ih => exact (pyInsert_perm le a (pySort le t)).trans (ih.cons a)

theorem mem_pySort {α : Type} (le : α → α → Bool) (x : α) (l : List α) :
    x ∈ pySort le l ↔ x ∈ l :=
  (pySort_perm le l).mem_iff

theorem pairwise_pyInsert {α : Type} (le : α → α → Bool)
    (htrans : ∀ a b c, le a b = true → le b c = true → le a c = true)
    (htotal : ∀ a b, le a b = true ∨ le b a = true)
    (a : α) (l : List α) (hl : l.Pairwise (fun x y => le x y = true)) :
    (pyInsert le a l).Pairwise (fun x y => le x y = true) := by
  induction l with
  | nil => simp [pyInsert]
  | cons b t ih =>
    rcases List.pairwise_cons.1 hl with ⟨hb, ht⟩
    simp only [pyInsert]
    split
    · rename_i hab
      refine List.pairwise_cons.2 ⟨?_, hl⟩
      intro y hy
      rcases List.mem_cons.1 hy with rfl | hyt
      · exact hab
      · exact htrans _ _ _ hab (hb y hyt)
    · rename_i hab
      have hba : le b a = true := by
        rcases htotal a b with h | h
        · exact absurd h hab
        · exact h
      refine List.pairwise_cons.2 ⟨?_, ih ht⟩
      intro y hy
      rcases (mem_pyInsert le a y t).1 hy with rfl | hyt
      · exact hba
      · exact hb y hyt

theorem pairwise_pySort {α : Type} (le : α → α → Bool)
    (htrans : ∀ a b c, le a b = true → le b c = true → le a c = true)
    (htotal : ∀ a b, le a b = true ∨ le b a = true)
    (l : List α) : (pySort le l).Pairwise (fun x y => le x y = true) := by
  induction l with
  | nil => simp [pySort]
  | cons a t ih => exact pairwise_pyInsert le htrans htotal a (pySort le t) ih

theorem mem_setAddP {α : Type} [DecidableEq α] (l : List α) (x y : α) :
    y ∈ setAddP l x ↔ y ∈ l ∨ y = x := by
  unfold setAddP
  split
  · rename_i h
    constructor
    · exact Or.inl
    · rintro (hy | rfl) <;> [exact hy; exact h]
  · simp [List.mem_append]

theorem nodup_setAddP {α : Type} [DecidableEq α] (l : List α) (x : α)
    (h : l.Nodup) : (setAddP l x).Nodup := by
  unfold setAddP
  split
  · exact h
  · rename_i hx
    simpa [List.nodup_append] using ⟨h, fun hmem => hx hmem⟩
/-! ### Frame lemma for the cross-gene merge -/

theorem mergeAcross_frame (ih : myQueryTranscripts) (s e : Option Int)
    (ts : List geneHitTuple) :
    ∃ gs, mergeAcross ih s e ts = { ih with genes := ih.genes ++ gs } := by
  induction ts generalizing ih s e with
  | nil =>
    refine ⟨[], ?_⟩
    simp [mergeAcross]
  | cons t ts ihind =>
    by_cases h0 : t.score = 0
    · refine ⟨[], ?_⟩
      simp [mergeAcross, h0]
    · by_cases hov : calc_overlap s e t.rStart t.rEnd ≤ 0
      · obtain ⟨gs, hgs⟩ := ihind { ih with genes := ih.genes ++ [t.rGene] }
          (naMin s t.rStart) (naMax e t.rEnd)
        refine ⟨[t.rGene] ++ gs, ?_⟩
        simp only [mergeAcross, if_neg h0, if_pos hov]
        rw [hgs]
        simp
      · obtain ⟨gs, hgs⟩ := ihind ih s e
        refine ⟨gs, ?_⟩
        simp only [mergeAcross, if_neg h0, if_neg hov]
        exact hgs

/-- Claim C10: in the cross-gene merge step (lines 1589-1596), absorbing a
secondary gene only appends its name to the chosen result's gene list — the
category, subtype, transcripts, end-distance, reference-length/exon and
agreement/overlap fields all keep the primary gene's values. -/
theorem claim10_merge_frame (ih : myQueryTranscripts) (s e : Option Int)
    (ts : List geneHitTuple) :
    ((mergeAcross ih s e ts).str_class = ih.str_class ∧
     (mergeAcross ih s e ts).subtype = ih.subtype ∧
     (mergeAcross ih s e ts).transcripts = ih.transcripts ∧
     (mergeAcross ih s e ts).tss_diff = ih.tss_diff ∧
     (mergeAcross ih s e ts).tts_diff = ih.tts_diff ∧
     (mergeAcross ih s e ts).refLen = ih.refLen ∧
     (mergeAcross ih s e ts).refExons = ih.refExons ∧
     (mergeAcross ih s e ts).q_splicesite_hit = ih.q_splicesite_hit ∧
     (mergeAcross ih s e ts).q_exon_overlap = ih.q_exon_overlap) ∧
    ∃ gs, (mergeAcross ih s e ts).genes = ih.genes ++ gs := by
  obtain ⟨gs, h⟩ := mergeAcross_frame ih s e ts
  rw [h]
  exact ⟨⟨rfl, rfl, rfl, rfl, rfl, rfl, rfl, rfl, rfl⟩, gs, rfl⟩

/-! ### Claim C3: the bite flag -/

/-- Claim C3 counterexample: at the junction `(100,200)` of `qBite` both
emitted reference distances are negative (−3 and −2), so "exactly one side
negative" is false, yet the emitted `bite_junction` flag is TRUE — refuting
the claimed strict XOR. -/
theorem claim3_counterexample :
    qBite.junctions = [(100, 200)] ∧
    (write_junctionRow jbcBite qBite (100, 200)).diff_to_Ref_start_site = -3 ∧
    (write_junctionRow jbcBite qBite (100, 200)).diff_to_Ref_end_site = -2 ∧
    (write_junctionRow jbcBite qBite (100, 200)).bite_junction = "TRUE" ∧
    ¬ (((write_junctionRow jbcBite qBite (100, 200)).diff_to_Ref_start_site < 0 ∧
          ¬ (write_junctionRow jbcBite qBite (100, 200)).diff_to_Ref_end_site < 0) ∨
       (¬ (write_junctionRow jbcBite qBite (100, 200)).diff_to_Ref_start_site < 0 ∧
          (write_junctionRow jbcBite qBite (100, 200)).diff_to_Ref_end_site < 0)) := by
  decide

/-- Claim C3 (amended): the emitted `bite_junction` flag is TRUE iff neither
distance is positive and at least one is negative (so it is also TRUE when
both sides are negative, not a strict XOR). -/
theorem claim3_bite_iff (jbc : List (String × chrJunctions))
    (trec : genePredRecord) (j : Int × Int) :
    (write_junctionRow jbc trec j).bite_junction = "TRUE" ↔
      ((write_junctionRow jbc trec j).diff_to_Ref_start_site ≤ 0 ∧
       (write_junctionRow jbc trec j).diff_to_Ref_end_site ≤ 0 ∧
       ((write_junctionRow jbc trec j).diff_to_Ref_start_site < 0 ∨
        (write_junctionRow jbc trec j).diff_to_Ref_end_site < 0)) := by
  simp only [write_junctionRow]
  constructor
  · intro ht
    split_ifs at ht with h
    · omega
    · exact absurd ht (by decide)
  · intro hr
    split_ifs with h
    · rfl
    · exfalso; omega

/-! ### Claim C2: fusion versus moreJunctions -/

/-- Claim C2 evaluation at the failing input: the query junction `(200,300)`
is owned by both implicated genes `G1` and `G2`, so the claim (and the
source's own comment at line 1763) demands `moreJunctions`; the code assigns
`fusion` because the un-flattened `itertools.chain` makes every junction
count 0. -/
theorem claim2_failing_eval :
    qFus.junctions = [(200, 300)] ∧
    hitFus.genes = ["G1", "G2"] ∧
    (200, 300) ∈ lookupGeneJ jbgFus "G1" ∧
    (200, 300) ∈ lookupGeneJ jbgFus "G2" ∧
    (novelIsoformsKnownGenes hitFus qFus jbcFus jbgFus).str_class = "fusion" ∧
    (novelIsoformsKnownGenes hitFus qFus jbcFus jbgFus).subtype = "multi-exon" := by
  decide

/-! ### Claim C5: genic_intron detection -/

/-- Claim C5 evaluation at the failing input: the query span `[200,300)` lies
strictly inside the known intron `(100,500)` with no same- or opposite-strand
gene overlap, so the claim says `genic_intron`; the code leaves `intergenic`
(its scan requires the intron donor to equal `txStart` because the condition
at line 1799 tests `txStart` twice and never `txEnd`). -/
theorem claim5_failing_eval :
    (100, 500) ∈ (lookupJbc jbcIntron qIntron.chrom).da_pairs ∧
    ((100 : Int) ≤ qIntron.txStart ∧ qIntron.txEnd ≤ (500 : Int)) ∧
    (blankHit qIntron).genes = [] ∧ (blankHit qIntron).AS_genes = [] ∧
    (associationOverlapping (blankHit qIntron) qIntron jbcIntron).str_class =
      "intergenic" := by
  decide

/-! ### Claim C6: the end-to-end junction-identical scenario -/

/-- Claim C6 counterexample: for reference exons `[(100,200),(300,400)]` and
query exons `[(100,200),(300,450)]` on the plus strand, the classification is
not `incomplete-splice_match` with subtype `3prime_fragment` as claimed. -/
theorem claim6_counterexample :
    ¬ ((transcriptsKnownSpliceSites [] [refG] sebgG qC6).str_class =
          "incomplete-splice_match" ∧
       (transcriptsKnownSpliceSites [] [refG] sebgG qC6).subtype =
          "3prime_fragment") := by
  decide

/-- Claim C6 (amended): in that scenario the junction lists agree exactly, so
the end difference is ignored and the result is `full-splice_match`, subtype
`multi-exon`, with `diff_to_TSS = 0` and `diff_to_TTS = -50`. -/
theorem claim6_amended_eval :
    (transcriptsKnownSpliceSites [] [refG] sebgG qC6).str_class =
        "full-splice_match" ∧
    (transcriptsKnownSpliceSites [] [refG] sebgG qC6).subtype = "multi-exon" ∧
    (transcriptsKnownSpliceSites [] [refG] sebgG qC6).tss_diff = some 0 ∧
    (transcriptsKnownSpliceSites [] [refG] sebgG qC6).tts_diff = some (-50) := by
  decide

/-! ### Claim C8: no fail-fast validation -/

/-- Claim C8 counterexample: `qNonMono` has non-monotonic exon coordinates
(its second exon starts left of its first), yet construction succeeds and
classification silently produces a result instead of failing fast. -/
theorem claim8_counterexample :
    qNonMono.exonStarts = [300, 100] ∧
    qNonMono.exonStarts.getD 0 0 > qNonMono.exonStarts.getD 1 0 ∧
    classifyStep [] [] [] qNonMono = Except.ok (blankHit qNonMono) :=
  ⟨by decide, by decide, rfl⟩

/-- Claim C8 (amended): the core performs no fail-fast validation.
Construction is total, and classification fails (with the Python
`IndexError`) exactly when the strand-indexed exon coordinate list is empty —
in particular a zero-exon record fails only incidentally, and non-monotonic
exon coordinates are never detected. -/
theorem claim8_no_fail_fast (refs1 refsN : List genePredRecord)
    (sebg : List (String × beginEnds)) (trec : genePredRecord) :
    (∃ msg, classifyStep refs1 refsN sebg trec = Except.error msg) ↔
      (if trec.strand = "+" then trec.exonEnds = [] else trec.exonStarts = []) := by
  unfold classifyStep
  split_ifs with h
  · cases hE : trec.exonEnds.getLast? with
    | none =>
      simp only [hE]
      simp [List.getLast?_eq_none_iff.1 hE]
    | some a =>
      simp only [hE]
      constructor
      · rintro ⟨msg, hmsg⟩
        exact absurd hmsg (by simp)
      · intro hnil
        rw [hnil] at hE
        simp at hE
  · cases hS : trec.exonStarts.head? with
    | none =>
      simp only [hS]
      simp [List.head?_eq_none_iff.1 hS]
    | some a =>
      simp only [hS]
      constructor
      · rintro ⟨msg, hmsg⟩
        exact absurd hmsg (by simp)
      · intro hnil
        rw [hnil] at hS
        simp at hS

/-! ### Claim C7: the reference length filter -/

theorem refStep_fold_mem (f : Bool) (m : Int) (recs : List genePredRecord)
    (acc : refIndex) (r : genePredRecord) :
    (r ∈ (recs.foldl (refStep f m) acc).refs_1exon_by_chr ∨
     r ∈ (recs.foldl (refStep f m) acc).refs_exons_by_chr) ↔
    ((r ∈ acc.refs_1exon_by_chr ∨ r ∈ acc.refs_exons_by_chr) ∨
     (r ∈ recs ∧ (f = true ∨ m ≤ r.length))) := by
  induction recs generalizing acc with
  | nil => simp
  | cons a t ih =>
    rw [List.foldl_cons, ih]
    have hstep :
        (r ∈ (refStep f m acc a).refs_1exon_by_chr ∨
         r ∈ (refStep f m acc a).refs_exons_by_chr) ↔
        ((r ∈ acc.refs_1exon_by_chr ∨ r ∈ acc.refs_exons_by_chr) ∨
         (r = a ∧ (f = true ∨ m ≤ a.length))) := by
      unfold refStep
      split_ifs with h1 h2
      · have hnp : ¬ (f = true ∨ m ≤ a.length) := by
          rcases h1 with ⟨hl, hf⟩
          push_neg
          refine ⟨?_, by omega⟩
          simpa using hf
        tauto
      · have hpass : f = true ∨ m ≤ a.length := by
          by_contra hc
          push_neg at hc
          exact h1 ⟨by omega, by simpa using hc.1⟩
        simp only [List.mem_append, List.mem_singleton]
        tauto
      · have hpass : f = true ∨ m ≤ a.length := by
          by_contra hc
          push_neg at hc
          exact h1 ⟨by omega, by simpa using hc.1⟩
        simp only [List.mem_append, List.mem_singleton]
        tauto
    rw [hstep, List.mem_cons]
    constructor
    · rintro ((hx | ⟨rfl, hp⟩) | ⟨ht, hp⟩)
      · exact Or.inl hx
      · exact Or.inr ⟨Or.inl rfl, hp⟩
      · exact Or.inr ⟨Or.inr ht, hp⟩
    · rintro (hx | ⟨(rfl | ht), hp⟩)
      · exact Or.inl (Or.inl hx)
      · exact Or.inl (Or.inr ⟨rfl, hp⟩)
      · exact Or.inr ⟨ht, hp⟩

/-- Claim C7: during reference index construction a record is indexed (into
the single-exon or the multi-exon tree) iff fusion mode is active or its
length reaches the configured minimum — so short records are dropped unless
fusion mode disables the filter, and records at or above the minimum are
always indexed. -/
theorem claim7_length_filter (is_fusion : Bool) (min_ref_len : Int)
    (recs : List genePredRecord) (r : genePredRecord) :
    (r ∈ (referenceParser is_fusion min_ref_len recs).refs_1exon_by_chr ∨
     r ∈ (referenceParser is_fusion min_ref_len recs).refs_exons_by_chr) ↔
    (r ∈ recs ∧ (is_fusion = true ∨ min_ref_len ≤ r.length)) := by
  unfold referenceParser
  rw [refStep_fold_mem]
  simp

/-! ### Claim C9: junctions come from multi-exon records -/

theorem mem_junctions_exonCount (r : genePredRecord) (da : Int × Int)
    (h : da ∈ r.junctions) : 2 ≤ r.exonCount := by
  unfold genePredRecord.junctions at h
  simp only [List.mem_map, List.mem_range] at h
  obtain ⟨i, hi, _⟩ := h
  omega

theorem lookupJbc_cons (p : String × chrJunctions)
    (t : List (String × chrJunctions)) (c : String) :
    lookupJbc (p :: t) c = if p.1 = c then p.2 else lookupJbc t c := by
  by_cases h : p.1 = c
  · rw [if_pos h]
    unfold lookupJbc
    rw [List.find?_cons_of_pos _ (by simpa using h)]
    rfl
  · rw [if_neg h]
    unfold lookupJbc
    rw [List.find?_cons_of_neg _ (by simpa using h)]

theorem lookupJbc_updChr (c2 : String) (f : chrJunctions → chrJunctions)
    (jbc : List (String × chrJunctions)) (c : String) :
    lookupJbc (updChr c2 f jbc) c =
      if c = c2 then f (lookupJbc jbc c2) else lookupJbc jbc c := by
  induction jbc with
  | nil =>
    show lookupJbc [(c2, f _)] c = _
    rw [lookupJbc_cons]
    by_cases h : c = c2
    · subst h
      rw [if_pos rfl, if_pos rfl]
      rfl
    · rw [if_neg (fun hh => h hh.symm), if_neg h]
  | cons p t ih =>
    unfold updChr
    by_cases hp : p.1 = c2
    · rw [if_pos hp, lookupJbc_cons, lookupJbc_cons, lookupJbc_cons]
      split_ifs <;> simp_all
    · rw [if_neg hp, lookupJbc_cons, ih, lookupJbc_cons, lookupJbc_cons]
      split_ifs <;> simp_all

theorem lookupGeneJ_cons (p : String × List (Int × Int))
    (t : List (String × List (Int × Int))) (g : String) :
    lookupGeneJ (p :: t) g = if p.1 = g then p.2 else lookupGeneJ t g := by
  by_cases h : p.1 = g
  · rw [if_pos h]
    unfold lookupGeneJ
    rw [List.find?_cons_of_pos _ (by simpa using h)]
    rfl
  · rw [if_neg h]
    unfold lookupGeneJ
    rw [List.find?_cons_of_neg _ (by simpa using h)]

theorem lookupGeneJ_updGeneJ (g0 : String) (d : Int × Int)
    (jg : List (String × List (Int × Int))) (g : String) :
    lookupGeneJ (updGeneJ g0 d jg) g =
      if g = g0 then setAddP (lookupGeneJ jg g0) d else lookupGeneJ jg g := by
  induction jg with
  | nil =>
    show lookupGeneJ [(g0, [d])] g = _
    rw [lookupGeneJ_cons]
    by_cases h : g = g0
    · subst h
      rw [if_pos rfl, if_pos rfl]
      rfl
    · rw [if_neg (fun hh => h hh.symm), if_neg h]
  | cons p t ih =>
    unfold updGeneJ
    by_cases hp : p.1 = g0
    · rw [if_pos hp, lookupGeneJ_cons, lookupGeneJ_cons, lookupGeneJ_cons]
      split_ifs <;> simp_all
    · rw [if_neg hp, lookupGeneJ_cons, ih, lookupGeneJ_cons, lookupGeneJ_cons]
      split_ifs <;> simp_all

theorem mem_daPairs_addJunctions (chrom : String) (js : List (Int × Int))
    (jbc : List (String × chrJunctions)) (c : String) (da : Int × Int) :
    da ∈ (lookupJbc (js.foldl (fun j d => updChr chrom (fun cj =>
        { donors := setAddP cj.donors d.1
          acceptors := setAddP cj.acceptors d.2
          da_pairs := setAddP cj.da_pairs d }) j) jbc) c).da_pairs →
    da ∈ (lookupJbc jbc c).da_pairs ∨ (c = chrom ∧ da ∈ js) := by
  induction js generalizing jbc with
  | nil => exact fun h => Or.inl h
  | cons d t ih =>
    intro h
    rcases ih _ h with h1 | ⟨hc, h2⟩
    · rw [lookupJbc_updChr] at h1
      by_cases hc : c = chrom
      · rw [if_pos hc] at h1
        simp only at h1
        rcases (mem_setAddP _ _ _).1 h1 with h3 | rfl
        · subst hc
          exact Or.inl h3
        · exact Or.inr ⟨hc, List.mem_cons_self _ _⟩
      · rw [if_neg hc] at h1
        exact Or.inl h1
    · exact Or.inr ⟨hc, List.mem_cons_of_mem _ h2⟩

theorem mem_geneJ_addJunctions (g0 : String) (js : List (Int × Int))
    (jg : List (String × List (Int × Int))) (g : String) (da : Int × Int) :
    da ∈ lookupGeneJ (js.foldl (fun j d => updGeneJ g0 d j) jg) g →
    da ∈ lookupGeneJ jg g ∨ (g = g0 ∧ da ∈ js) := by
  induction js generalizing jg with
  | nil => exact fun h => Or.inl h
  | cons d t ih =>
    intro h
    rcases ih _ h with h1 | ⟨hc, h2⟩
    · rw [lookupGeneJ_updGeneJ] at h1
      by_cases hc : g = g0
      · rw [if_pos hc] at h1
        rcases (mem_setAddP _ _ _).1 h1 with h3 | rfl
        · subst hc
          exact Or.inl h3
        · exact Or.inr ⟨hc, List.mem_cons_self _ _⟩
      · rw [if_neg hc] at h1
        exact Or.inl h1
    · exact Or.inr ⟨hc, List.mem_cons_of_mem _ h2⟩

theorem refIndex_daPairs_source (f : Bool) (m : Int) (recs : List genePredRecord)
    (acc : refIndex) (c : String) (da : Int × Int) :
    da ∈ (lookupJbc (recs.foldl (refStep f m) acc).junctions_by_chr c).da_pairs →
    da ∈ (lookupJbc acc.junctions_by_chr c).da_pairs ∨
      ∃ r, r ∈ recs ∧ r.chrom = c ∧ da ∈ r.junctions := by
  induction recs generalizing acc with
  | nil => exact fun h => Or.inl h
  | cons a t ih =>
    intro h
    rw [List.foldl_cons] at h
    rcases ih _ h with h1 | ⟨r, hr, hrc, hrj⟩
    · unfold refStep at h1
      split_ifs at h1
      · exact Or.inl h1
      · exact Or.inl h1
      · rcases mem_daPairs_addJunctions _ _ _ _ _ h1 with h2 | ⟨rfl, h3⟩
        · exact Or.inl h2
        · exact Or.inr ⟨a, List.mem_cons_self _ _, rfl, h3⟩
    · exact Or.inr ⟨r, List.mem_cons_of_mem _ hr, hrc, hrj⟩

theorem refIndex_geneJ_source (f : Bool) (m : Int) (recs : List genePredRecord)
    (acc : refIndex) (g : String) (da : Int × Int) :
    da ∈ lookupGeneJ (recs.foldl (refStep f m) acc).junctions_by_gene g →
    da ∈ lookupGeneJ acc.junctions_by_gene g ∨
      ∃ r, r ∈ recs ∧ r.gene = g ∧ da ∈ r.junctions := by
  induction recs generalizing acc with
  | nil => exact fun h => Or.inl h
  | cons a t ih =>
    intro h
    rw [List.foldl_cons] at h
    rcases ih _ h with h1 | ⟨r, hr, hrg, hrj⟩
    · unfold refStep at h1
      split_ifs at h1
      · exact Or.inl h1
      · exact Or.inl h1
      · rcases mem_geneJ_addJunctions _ _ _ _ _ h1 with h2 | ⟨rfl, h3⟩
        · exact Or.inl h2
        · exact Or.inr ⟨a, List.mem_cons_self _ _, rfl, h3⟩
    · exact Or.inr ⟨r, List.mem_cons_of_mem _ hr, hrg, hrj⟩

theorem lookupJbc_sorted (l : List (String × chrJunctions)) (c : String) :
    lookupJbc (l.map (fun p =>
      (p.1,
        { donors := pySort (fun a b => decide (a ≤ b)) p.2.donors
          acceptors := pySort (fun a b => decide (a ≤ b)) p.2.acceptors
          da_pairs := pySort pairLeBool p.2.da_pairs }))) c =
    { donors := pySort (fun a b => decide (a ≤ b)) (lookupJbc l c).donors
      acceptors := pySort (fun a b => decide (a ≤ b)) (lookupJbc l c).acceptors
      da_pairs := pySort pairLeBool (lookupJbc l c).da_pairs } := by
  induction l with
  | nil => simp [lookupJbc, List.find?, pySort]
  | cons p t ih =>
    simp only [List.map_cons]
    rw [lookupJbc_cons, lookupJbc_cons]
    by_cases hp : p.1 = c
    · rw [if_pos hp, if_pos hp]
    · rw [if_neg hp, if_neg hp, ih]

/-- Claim C9: every (donor, acceptor) pair stored by the index construction —
in the per-chromosome pair set or in a per-gene junction set — comes from an
input record with at least two exons that owns that junction, on that
chromosome (respectively, of that gene); in particular no single-exon record
ever contributes a junction. -/
theorem claim9_junction_source (is_fusion : Bool) (min_ref_len : Int)
    (recs : List genePredRecord) (c g : String) (da : Int × Int) :
    (da ∈ (lookupJbc (referenceParser is_fusion min_ref_len recs).junctions_by_chr
        c).da_pairs →
      ∃ r, r ∈ recs ∧ r.chrom = c ∧ 2 ≤ r.exonCount ∧ da ∈ r.junctions) ∧
    (da ∈ lookupGeneJ (referenceParser is_fusion min_ref_len recs).junctions_by_gene
        g →
      ∃ r, r ∈ recs ∧ r.gene = g ∧ 2 ≤ r.exonCount ∧ da ∈ r.junctions) := by
  constructor
  · intro h
    unfold referenceParser at h
    rw [lookupJbc_sorted] at h
    simp only at h
    rw [mem_pySort] at h
    rcases refIndex_daPairs_source _ _ _ _ _ _ h with h1 | ⟨r, hr, hrc, hrj⟩
    · simp [lookupJbc, List.find?] at h1
    · exact ⟨r, hr, hrc, mem_junctions_exonCount r da hrj, hrj⟩
  · intro h
    unfold referenceParser at h
    rcases refIndex_geneJ_source _ _ _ _ _ _ h with h1 | ⟨r, hr, hrg, hrj⟩
    · simp [lookupGeneJ, List.find?] at h1
    · exact ⟨r, hr, hrg, mem_junctions_exonCount r da hrj, hrj⟩

/-- Claim C9 witness: instantiated at the two-exon record `rLong`, whose
junction `(1200,1300)` is indexed on chromosome `c1`. -/
theorem claim9_junction_source_witness :
    ((1200, 1300) ∈ (lookupJbc
        (referenceParser false 200 [rLong]).junctions_by_chr "c1").da_pairs) ∧
    ∃ r, r ∈ [rLong] ∧ r.chrom = "c1" ∧ 2 ≤ r.exonCount ∧
      (1200, 1300) ∈ r.junctions :=
  ⟨by decide,
    (claim9_junction_source false 200 [rLong] "c1" "GL" (1200, 1300)).1 (by decide)⟩

/-! ### Rank arithmetic -/

theorem cat_ranking_le (s : String) : cat_ranking s ≤ 5 := by
  unfold cat_ranking
  split <;> omega

theorem rankClass_cat_ranking (s : String) (h : clsOK s) :
    rankClass (cat_ranking s) = s := by
  rcases h with rfl | rfl | rfl | rfl | rfl | rfl <;> rfl

theorem foldl_max_eq (t : List Nat) : ∀ x : Nat, t.foldl max x = max x (t.foldl max 0) := by
  induction t with
  | nil => intro x; simp
  | cons b t ih =>
    intro x
    simp only [List.foldl_cons]
    rw [ih (max x b), ih (max 0 b)]
    omega

theorem natSup_cons (a : Nat) (l : List Nat) :
    natSup (a :: l) = max a (natSup l) := by
  simp only [natSup, List.foldl_cons]
  rw [foldl_max_eq]
  omega

theorem le_natSup {x : Nat} {l : List Nat} (h : x ∈ l) : x ≤ natSup l := by
  induction l with
  | nil => cases h
  | cons a t ih =>
    rw [natSup_cons]
    rcases List.mem_cons.1 h with rfl | ht
    · omega
    · have := ih ht
      omega

theorem natSup_le {l : List Nat} {m : Nat} (h : ∀ x ∈ l, x ≤ m) : natSup l ≤ m := by
  induction l with
  | nil => simp [natSup]
  | cons a t ih =>
    rw [natSup_cons]
    have h1 := h a (List.mem_cons_self a t)
    have h2 := ih (fun x hx => h x (List.mem_cons_of_mem a hx))
    omega

theorem natSup_perm {l l2 : List Nat} (h : List.Perm l l2) : natSup l = natSup l2 := by
  induction h with
  | nil => rfl
  | cons a _ ih => rw [natSup_cons, natSup_cons, ih]
  | swap a b t => rw [natSup_cons, natSup_cons, natSup_cons, natSup_cons]; omega
  | trans _ _ ih1 ih2 => rw [ih1, ih2]

/-! ### The per-candidate rank transition of `processRef` -/

set_option maxHeartbeats 3000000 in
theorem processRef_rank (trec ref : genePredRecord) (ih : myQueryTranscripts)
    (h : clsOK ih.str_class) :
    cat_ranking (processRef trec ih ref).str_class =
      max (cat_ranking ih.str_class) (candRank trec ref) ∧
    clsOK (processRef trec ih ref).str_class := by
  have c0 : cat_ranking "" = 0 := rfl
  have c1 : cat_ranking "geneOverlap" = 1 := rfl
  have c2 : cat_ranking "anyKnownSpliceSite" = 2 := rfl
  have c3 : cat_ranking "anyKnownJunction" = 3 := rfl
  have c4 : cat_ranking "incomplete-splice_match" = 4 := rfl
  have c5 : cat_ranking "full-splice_match" = 5 := rfl
  simp only [processRef, candRank, fsmHit]
  generalize calc_exon_overlap trec.exons ref.exons = E
  generalize calc_splicesite_agreement trec.exons ref.exons = A
  generalize compare_junctions trec ref = mt
  generalize get_diff_tss_tts trec ref = d
  generalize blankHit trec = B
  rcases h with h | h | h | h | h | h <;>
    rw [h] <;>
    split_ifs <;>
    simp_all [clsOK, Nat.max_def]

theorem foldl_processRef_rank (trec : genePredRecord) (refs : List genePredRecord)
    (ih : myQueryTranscripts) (h : clsOK ih.str_class) :
    cat_ranking ((refs.foldl (processRef trec) ih).str_class) =
      max (cat_ranking ih.str_class) (natSup (refs.map (candRank trec))) ∧
    clsOK ((refs.foldl (processRef trec) ih).str_class) := by
  induction refs generalizing ih with
  | nil =>
    refine ⟨?_, h⟩
    simp [natSup]
  | cons a t ihind =>
    obtain ⟨hr, hc⟩ := processRef_rank trec a ih h
    obtain ⟨hr2, hc2⟩ := ihind (processRef trec ih a) hc
    refine ⟨?_, hc2⟩
    rw [List.foldl_cons, hr2, hr, List.map_cons, natSup_cons]
    omega

theorem geneFold_rank (trec : genePredRecord) (refs : List genePredRecord) :
    cat_ranking (geneFold trec refs).str_class =
      natSup (refs.map (candRank trec)) ∧
    clsOK (geneFold trec refs).str_class := by
  obtain ⟨hr, hc⟩ := foldl_processRef_rank trec refs (blankHit trec) (Or.inl rfl)
  refine ⟨?_, hc⟩
  rw [geneFold, hr]
  simp [blankHit, cat_ranking]

/-! ### The tuple comparator is a total preorder -/

theorem tupleLe_total (trec : genePredRecord) (t u : geneHitTuple) :
    tupleLe trec t u = true ∨ tupleLe trec u t = true := by
  unfold tupleLe
  rcases lt_trichotomy t.score u.score with h | h | h
  · right
    simp [h]
  · rcases le_total (compositeKey trec t) (compositeKey trec u) with hc | hc
    · right
      simp [h, hc]
    · left
      simp [h, hc]
  · left
    simp [h]

theorem tupleLe_trans (trec : genePredRecord) (a b c : geneHitTuple)
    (hab : tupleLe trec a b = true) (hbc : tupleLe trec b c = true) :
    tupleLe trec a c = true := by
  unfold tupleLe at *
  simp only [Bool.or_eq_true, Bool.and_eq_true, decide_eq_true_eq, beq_iff_eq] at *
  rcases hab with h1 | ⟨h1, h2⟩ <;> rcases hbc with h3 | ⟨h3, h4⟩
  · left; omega
  · left; omega
  · left; omega
  · right; exact ⟨h3.trans h1, h4.trans h2⟩

/-! ### Gene keys -/

theorem mem_foldl_setAddP (l : List genePredRecord) (acc : List String) (g : String) :
    g ∈ l.foldl (fun a r => setAddP a r.gene) acc ↔
      g ∈ acc ∨ ∃ r, r ∈ l ∧ r.gene = g := by
  induction l generalizing acc with
  | nil => simp
  | cons a t ih =>
    rw [List.foldl_cons, ih, mem_setAddP]
    constructor
    · rintro ((hacc | rfl) | ⟨r, hr, rfl⟩)
      · exact Or.inl hacc
      · exact Or.inr ⟨a, List.mem_cons_self _ _, rfl⟩
      · exact Or.inr ⟨r, List.mem_cons_of_mem _ hr, rfl⟩
    · rintro (hacc | ⟨r, hr, rfl⟩)
      · exact Or.inl (Or.inl hacc)
      · rcases List.mem_cons.1 hr with rfl | hrt
        · exact Or.inl (Or.inr rfl)
        · exact Or.inr ⟨r, hrt, rfl⟩

theorem mem_geneKeys (l : List genePredRecord) (g : String) :
    g ∈ geneKeys l ↔ ∃ r, r ∈ l ∧ r.gene = g := by
  unfold geneKeys
  rw [mem_foldl_setAddP]
  simp

theorem nodup_geneKeys (l : List genePredRecord) : (geneKeys l).Nodup := by
  unfold geneKeys
  have key : ∀ (t : List genePredRecord) (acc : List String), acc.Nodup →
      (t.foldl (fun a r => setAddP a r.gene) acc).Nodup := by
    intro t
    induction t with
    | nil => exact fun acc h => h
    | cons a t ih => exact fun acc h => ih _ (nodup_setAddP _ _ h)
  exact key l [] List.nodup_nil

theorem geneKeys_perm {l l2 : List genePredRecord} (h : List.Perm l l2) :
    List.Perm (geneKeys l) (geneKeys l2) := by
  rw [List.perm_ext_iff_of_nodup (nodup_geneKeys l) (nodup_geneKeys l2)]
  intro g
  rw [mem_geneKeys, mem_geneKeys]
  constructor
  · rintro ⟨r, hr, rfl⟩
    exact ⟨r, h.mem_iff.1 hr, rfl⟩
  · rintro ⟨r, hr, rfl⟩
    exact ⟨r, h.mem_iff.2 hr, rfl⟩

theorem geneKeys_ne_nil (l : List genePredRecord) (h : l ≠ []) :
    geneKeys l ≠ [] := by
  cases l with
  | nil => exact absurd rfl h
  | cons a t =>
    intro hk
    have hmem : a.gene ∈ geneKeys (a :: t) :=
      (mem_geneKeys _ _).2 ⟨a, List.mem_cons_self _ _, rfl⟩
    rw [hk] at hmem
    cases hmem

/-! ### Class preservation through the epilogue -/

theorem mergeAcross_str_class (ih : myQueryTranscripts) (s e : Option Int)
    (ts : List geneHitTuple) : (mergeAcross ih s e ts).str_class = ih.str_class := by
  obtain ⟨gs, h⟩ := mergeAcross_frame ih s e ts
  rw [h]

theorem finalizeHit_str_class (sebg : List (String × beginEnds))
    (trec : genePredRecord) (ih : myQueryTranscripts) :
    (finalizeHit sebg trec ih).str_class = ih.str_class := by
  unfold finalizeHit get_gene_diff_tss_tts
  split_ifs <;> rfl

/-! ### Characterizing the final category of the multi-exon search -/

theorem tupleLe_score {trec : genePredRecord} {t u : geneHitTuple}
    (h : tupleLe trec t u = true) : u.score ≤ t.score := by
  unfold tupleLe at h
  simp only [Bool.or_eq_true, Bool.and_eq_true, decide_eq_true_eq, beq_iff_eq] at h
  rcases h with h | ⟨h, _⟩ <;> omega

theorem getLast?_mem_self {α : Type} {l : List α} {a : α}
    (h : l.getLast? = some a) : a ∈ l := by
  induction l with
  | nil => simp at h
  | cons b t ih =>
    cases t with
    | nil =>
      simp only [List.getLast?_singleton, Option.some.injEq] at h
      simp [h]
    | cons c t2 =>
      rw [List.getLast?_cons_cons] at h
      exact List.mem_cons_of_mem _ (ih h)

theorem mem_geneTuples {trec : genePredRecord} {hits : List genePredRecord}
    {t : geneHitTuple} (h : t ∈ geneTuples trec hits) :
    t.iso_hit = geneFold trec (hits.filter (fun r => r.gene == t.rGene)) ∧
    t.score = cat_ranking t.iso_hit.str_class := by
  unfold geneTuples at h
  rcases List.mem_map.1 h with ⟨g, _, rfl⟩
  exact ⟨rfl, rfl⟩

theorem geneTuples_map_score (trec : genePredRecord) (hits : List genePredRecord) :
    (geneTuples trec hits).map geneHitTuple.score =
      (geneKeys hits).map (fun g =>
        cat_ranking (geneFold trec (hits.filter (fun r => r.gene == g))).str_class) := by
  unfold geneTuples
  rw [List.map_map]
  rfl

theorem multiExonHit_class_char (sebg : List (String × beginEnds))
    (trec : genePredRecord) (hits : List genePredRecord) :
    (multiExonHit sebg trec hits).str_class =
      rankClass (natSup ((geneTuples trec hits).map geneHitTuple.score)) := by
  unfold multiExonHit
  by_cases hempty : hits.isEmpty
  · rw [if_pos hempty]
    rw [List.isEmpty_iff.1 hempty]
    rfl
  · rw [if_neg hempty]
    rcases hpos : (geneTuples trec hits).filter (fun t => decide (0 < t.score)) with
      _ | ⟨p, ps⟩
    · rw [hpos]
      rcases hlast : (geneTuples trec hits).getLast? with _ | tl
      · exfalso
        have h1 : geneTuples trec hits = [] := List.getLast?_eq_none_iff.1 hlast
        have h2 : geneKeys hits = [] := by
          unfold geneTuples at h1
          exact List.map_eq_nil_iff.1 h1
        exact geneKeys_ne_nil hits
          (fun hh => hempty (List.isEmpty_iff.2 hh)) h2
      · show tl.iso_hit.str_class = _
        have htl : tl ∈ geneTuples trec hits := getLast?_mem_self hlast
        obtain ⟨hiso, hscore⟩ := mem_geneTuples htl
        have hzero : ∀ t ∈ geneTuples trec hits, t.score = 0 := by
          intro t ht
          have := List.filter_eq_nil_iff.1 hpos t ht
          simp only [decide_eq_true_eq] at this
          omega
        have hsup : natSup ((geneTuples trec hits).map geneHitTuple.score) = 0 := by
          have hle : natSup ((geneTuples trec hits).map geneHitTuple.score) ≤ 0 :=
            natSup_le (by
              intro x hx
              rcases List.mem_map.1 hx with ⟨t, ht, rfl⟩
              rw [hzero t ht])
          omega
        rw [hsup]
        have hclsOK : clsOK tl.iso_hit.str_class := by
          rw [hiso]
          exact (geneFold_rank trec _).2
        have h0 : cat_ranking tl.iso_hit.str_class = 0 := by
          rw [← hscore]
          exact hzero tl htl
        calc tl.iso_hit.str_class
            = rankClass (cat_ranking tl.iso_hit.str_class) :=
              (rankClass_cat_ranking _ hclsOK).symm
          _ = rankClass 0 := by rw [h0]
    · rw [hpos]
      show (finalizeHit sebg trec
          (mergeAcross ((pySort (tupleLe trec) (p :: ps)).headD p).iso_hit
            ((pySort (tupleLe trec) (p :: ps)).headD p).rStart
            ((pySort (tupleLe trec) (p :: ps)).headD p).rEnd
            (pySort (tupleLe trec) (p :: ps)).tail)).str_class = _
      have hperm : List.Perm (pySort (tupleLe trec) (p :: ps)) (p :: ps) :=
        pySort_perm _ _
      rcases hsrt : pySort (tupleLe trec) (p :: ps) with _ | ⟨f, rest⟩
      · exfalso
        rw [hsrt] at hperm
        have := hperm.length_eq
        simp at this
      · rw [hsrt] at hperm
        rw [List.headD_cons, List.tail_cons, finalizeHit_str_class,
          mergeAcross_str_class]
        have hpw : List.Pairwise (fun a b => tupleLe trec a b = true) (f :: rest) := by
          have h0 := pairwise_pySort (tupleLe trec)
            (fun a b c => tupleLe_trans trec a b c)
            (fun a b => tupleLe_total trec a b) (p :: ps)
          rw [hsrt] at h0
          exact h0
        have hfge : ∀ x ∈ p :: ps, x.score ≤ f.score := by
          intro x hx
          rcases List.mem_cons.1 (hperm.mem_iff.2 hx) with rfl | hxr
          · exact le_refl _
          · exact tupleLe_score (List.rel_of_pairwise_cons hpw hxr)
        have hfmem : f ∈ geneTuples trec hits := by
          have h1 : f ∈ p :: ps := hperm.mem_iff.1 (List.mem_cons_self _ _)
          have h2 := hpos ▸ h1
          exact (List.mem_filter.1 h2).1
        have hsup : natSup ((geneTuples trec hits).map geneHitTuple.score) = f.score := by
          have hub : natSup ((geneTuples trec hits).map geneHitTuple.score) ≤ f.score :=
            natSup_le (by
              intro x hx
              rcases List.mem_map.1 hx with ⟨t, ht, rfl⟩
              by_cases hts : 0 < t.score
              · refine hfge t ?_
                rw [← hpos]
                exact List.mem_filter.2 ⟨ht, by simpa using hts⟩
              · omega)
          have hlb : f.score ≤ natSup ((geneTuples trec hits).map geneHitTuple.score) :=
            le_natSup (List.mem_map.2 ⟨f, hfmem, rfl⟩)
          omega
        obtain ⟨hiso, hscore⟩ := mem_geneTuples hfmem
        have hclsOK : clsOK f.iso_hit.str_class := by
          rw [hiso]
          exact (geneFold_rank trec _).2
        rw [hsup]
        calc f.iso_hit.str_class
            = rankClass (cat_ranking f.iso_hit.str_class) :=
              (rankClass_cat_ranking _ hclsOK).symm
          _ = rankClass f.score := by rw [← hscore]

theorem tKSS_class_char (refs1 refsN : List genePredRecord)
    (sebg : List (String × beginEnds)) (trec : genePredRecord)
    (h2 : 2 ≤ trec.exonCount) :
    (transcriptsKnownSpliceSites refs1 refsN sebg trec).str_class =
      rankClass (natSup ((geneTuples trec (hitsOf refs1 refsN trec)).map
        geneHitTuple.score)) := by
  unfold transcriptsKnownSpliceSites
  rw [if_pos h2]
  exact multiExonHit_class_char sebg trec _

/-! ### Claim C4: candidate order and the final match -/

/-- Claim C4 counterexample: `rTieA` and `rTieB` are exact-scoring ties for
`qTie` (same gene, same junctions, same end distances, different ids), yet
swapping their enumeration order changes the reported matched transcript —
refuting the claim that the final chosen match is order-independent. -/
theorem claim4_counterexample :
    List.Perm [rTieB, rTieA] [rTieA, rTieB] ∧
    IsExactCand qTie rTieA ∧ IsExactCand qTie rTieB ∧
    rTieA.gene = rTieB.gene ∧ totalD qTie rTieA = totalD qTie rTieB ∧
    (transcriptsKnownSpliceSites [] [rTieA, rTieB] sebgTie qTie).transcripts =
      ["R1"] ∧
    (transcriptsKnownSpliceSites [] [rTieB, rTieA] sebgTie qTie).transcripts =
      ["R2"] :=
  ⟨List.Perm.swap rTieA rTieB [], by decide, by decide, by decide, by decide,
    by decide, by decide⟩

/-- Claim C4 (amended): for a multi-exon query, permuting the reference lists
(hence the enumeration order of candidate genes and of candidates within a
gene) never changes the returned category; the identities of the reported
transcripts and genes may change between exactly-tied candidates (see the
counterexample). -/
theorem claim4_perm_invariant_category (refs1 refsN refs1p refsNp : List genePredRecord)
    (sebg : List (String × beginEnds)) (trec : genePredRecord)
    (h2 : 2 ≤ trec.exonCount)
    (hp1 : List.Perm refs1p refs1) (hpN : List.Perm refsNp refsN) :
    (transcriptsKnownSpliceSites refs1p refsNp sebg trec).str_class =
      (transcriptsKnownSpliceSites refs1 refsN sebg trec).str_class := by
  rw [tKSS_class_char refs1p refsNp sebg trec h2,
    tKSS_class_char refs1 refsN sebg trec h2]
  have hhits : List.Perm (hitsOf refs1p refsNp trec) (hitsOf refs1 refsN trec) := by
    unfold hitsOf treeFind
    exact List.Perm.append (hpN.filter _) (hp1.filter _)
  congr 1
  rw [geneTuples_map_score, geneTuples_map_score]
  have hpt : ∀ g : String,
      cat_ranking (geneFold trec ((hitsOf refs1p refsNp trec).filter
        (fun r => r.gene == g))).str_class =
      cat_ranking (geneFold trec ((hitsOf refs1 refsN trec).filter
        (fun r => r.gene == g))).str_class := by
    intro g
    rw [(geneFold_rank trec _).1, (geneFold_rank trec _).1]
    exact natSup_perm ((hhits.filter _).map _)
  rw [List.map_congr_left (fun g _ => hpt g)]
  exact natSup_perm ((geneKeys_perm hhits).map _)

/-- Claim C4 witness: the amended theorem applied to the tie scenario. -/
theorem claim4_perm_invariant_category_witness :
    (2 ≤ qTie.exonCount ∧ List.Perm ([] : List genePredRecord) [] ∧
      List.Perm [rTieB, rTieA] [rTieA, rTieB]) ∧
    (transcriptsKnownSpliceSites [] [rTieB, rTieA] sebgTie qTie).str_class =
      (transcriptsKnownSpliceSites [] [rTieA, rTieB] sebgTie qTie).str_class :=
  ⟨⟨by decide, List.Perm.refl [], List.Perm.swap rTieA rTieB []⟩,
    claim4_perm_invariant_category [] [rTieA, rTieB] [] [rTieB, rTieA] sebgTie
      qTie (by decide) (List.Perm.refl []) (List.Perm.swap rTieA rTieB [])⟩

/-! ### Claim C1: exact junction matches are full-splice matches -/

theorem compare_junctions_exact_iff (trec ref : genePredRecord) :
    compare_junctions trec ref = "exact" ↔ trec.junctions = ref.junctions := by
  unfold compare_junctions
  split_ifs with h1 h2 h3
  · simp [h1]
  · simp [h1]
  · simp [h1]
  · simp [h1]

theorem candRank_le (trec ref : genePredRecord) : candRank trec ref ≤ 5 := by
  unfold candRank
  split_ifs <;> omega

theorem junctions_length (r : genePredRecord) :
    r.junctions.length = r.exonCount - 1 := by
  unfold genePredRecord.junctions
  rw [List.length_map, List.length_range]

theorem processRef_exact_notFSM (trec ref : genePredRecord)
    (ih : myQueryTranscripts) (hcls : clsOK ih.str_class)
    (hn : ih.str_class ≠ "full-splice_match") (hex : IsExactCand trec ref) :
    processRef trec ih ref = fsmHit trec ref := by
  obtain ⟨hs, hec, hj⟩ := hex
  have hlt : cat_ranking ih.str_class < cat_ranking "full-splice_match" := by
    rcases hcls with h | h | h | h | h | h <;> rw [h] <;>
      first | decide | exact absurd h hn
  simp only [processRef]
  rw [if_neg (fun hne => hne hs.symm), if_neg hec,
    if_pos ((compare_junctions_exact_iff trec ref).2 hj), if_pos (Or.inl hlt)]

theorem processRef_of_FSM (trec ref : genePredRecord) (ih : myQueryTranscripts)
    (h : ih.str_class = "full-splice_match") :
    (IsExactCand trec ref ∧ totalD trec ref < ih.get_total_diff ∧
      processRef trec ih ref = fsmHit trec ref) ∨
    (¬ (IsExactCand trec ref ∧ totalD trec ref < ih.get_total_diff) ∧
      ∃ asg, processRef trec ih ref = { ih with AS_genes := asg }) := by
  simp only [processRef]
  by_cases hstr : trec.strand ≠ ref.strand
  · rw [if_pos hstr]
    right
    refine ⟨?_, setAddP ih.AS_genes ref.gene, rfl⟩
    rintro ⟨⟨hs, _, _⟩, _⟩
    exact hstr hs.symm
  · rw [if_neg hstr]
    by_cases hec : ref.exonCount = 1
    · rw [if_pos hec, if_neg ?hc1]
      case hc1 =>
        rintro ⟨_, hlt⟩
        rw [h] at hlt
        simp [cat_ranking] at hlt
      right
      refine ⟨?_, ih.AS_genes, rfl⟩
      rintro ⟨⟨_, hne, _⟩, _⟩
      exact hne hec
    · rw [if_neg hec]
      by_cases hj : trec.junctions = ref.junctions
      · rw [if_pos ((compare_junctions_exact_iff trec ref).2 hj)]
        have hsEq : ref.strand = trec.strand := (not_not.1 hstr).symm
        by_cases hlt : totalD trec ref < ih.get_total_diff
        · have hlt2 : |(get_diff_tss_tts trec ref).1| +
              |(get_diff_tss_tts trec ref).2| < ih.get_total_diff := hlt
          rw [if_pos (Or.inr hlt2)]
          left
          exact ⟨⟨hsEq, hec, hj⟩, hlt, rfl⟩
        · rw [if_neg ?hc2]
          case hc2 =>
            rintro (h5 | hx)
            · rw [h] at h5
              simp [cat_ranking] at h5
            · exact hlt hx
          right
          exact ⟨fun hc => hlt hc.2, ih.AS_genes, rfl⟩
      · have hnexact : compare_junctions trec ref ≠ "exact" :=
          fun hc => hj ((compare_junctions_exact_iff trec ref).1 hc)
        rw [if_neg hnexact]
        have hfail : ¬ (IsExactCand trec ref ∧ totalD trec ref < ih.get_total_diff) := by
          rintro ⟨⟨_, _, hj2⟩, _⟩
          exact hj hj2
        refine Or.inr ⟨hfail, ?_⟩
        by_cases hsub : compare_junctions trec ref = "subset"
        · rw [if_pos hsub, if_neg ?hc3]
          case hc3 =>
            rintro (h4 | ⟨heq, _⟩)
            · rw [h] at h4
              simp [cat_ranking] at h4
            · rw [h] at heq
              exact absurd heq (by decide)
          exact ⟨ih.AS_genes, rfl⟩
        · rw [if_neg hsub]
          by_cases hpar : compare_junctions trec ref = "partial"
          · rw [if_pos hpar, if_neg ?hc4]
            case hc4 =>
              rintro (h3 | ⟨heq, _⟩ | ⟨heq, _, _⟩ | ⟨heq, _, _⟩)
              · rw [h] at h3
                simp [cat_ranking] at h3
              · rw [h] at heq
                exact absurd heq (by decide)
              · rw [h] at heq
                exact absurd heq (by decide)
              · rw [h] at heq
                exact absurd heq (by decide)
            exact ⟨ih.AS_genes, rfl⟩
          · rw [if_neg hpar]
            have hCa : ¬ (cat_ranking ih.str_class < cat_ranking "anyKnownSpliceSite" ∧
                calc_splicesite_agreement trec.exons ref.exons > 0) := by
              rintro ⟨h2a, _⟩
              rw [h] at h2a
              simp [cat_ranking] at h2a
            rw [if_neg hCa,
              if_neg (show ¬ (ih.str_class = "") from by rw [h]; decide)]
            exact ⟨ih.AS_genes, rfl⟩

theorem processRef_not_FSM (trec ref : genePredRecord) (ih : myQueryTranscripts)
    (hn : ih.str_class ≠ "full-splice_match") (hnex : ¬ IsExactCand trec ref) :
    (processRef trec ih ref).str_class ≠ "full-splice_match" := by
  simp only [processRef]
  by_cases hstr : trec.strand ≠ ref.strand
  · rw [if_pos hstr]
    exact hn
  · rw [if_neg hstr]
    by_cases hec : ref.exonCount = 1
    · rw [if_pos hec]
      split_ifs
      · simp
      · exact hn
    · rw [if_neg hec]
      by_cases hj : trec.junctions = ref.junctions
      · exact absurd ⟨(not_not.1 hstr).symm, hec, hj⟩ hnex
      · rw [if_neg (fun hc => hj ((compare_junctions_exact_iff trec ref).1 hc))]
        split_ifs <;> first | exact hn | simp

theorem processRef_foldInv (trec ref : genePredRecord)
    (seen : List genePredRecord) (ih : myQueryTranscripts)
    (h : FoldInv trec seen ih) :
    FoldInv trec (seen ++ [ref]) (processRef trec ih ref) := by
  obtain ⟨hcls, hexB, hnFSM⟩ := h
  refine ⟨(processRef_rank trec ref ih hcls).2, ?_, ?_⟩
  · rintro ⟨r, hr, hrex⟩
    by_cases hseen : ∃ r0, r0 ∈ seen ∧ IsExactCand trec r0
    · obtain ⟨hFSM, r0, hr0, hr0ex, htr, hg, hts, htt, hmin⟩ := hexB hseen
      have htd : ih.get_total_diff = totalD trec r0 := by
        unfold myQueryTranscripts.get_total_diff totalD
        rw [hts, htt]
        rfl
      rcases processRef_of_FSM trec ref ih hFSM with
        ⟨hexr, hlt, heq⟩ | ⟨hns, asg, heq⟩
      · rw [heq]
        refine ⟨rfl, ref, List.mem_append_right _ (List.mem_singleton_self _),
          hexr, rfl, rfl, rfl, rfl, ?_⟩
        intro r1 hr1 hex1
        rcases List.mem_append.1 hr1 with h1 | h1
        · have hm := hmin r1 h1 hex1
          rw [htd] at hlt
          omega
        · rw [List.mem_singleton.1 h1]
      · rw [heq]
        refine ⟨hFSM, r0, List.mem_append_left _ hr0, hr0ex, htr, hg, hts, htt, ?_⟩
        intro r1 hr1 hex1
        rcases List.mem_append.1 hr1 with h1 | h1
        · exact hmin r1 h1 hex1
        · have hex1r : IsExactCand trec ref := by
            rwa [List.mem_singleton.1 h1] at hex1
          rw [List.mem_singleton.1 h1]
          by_contra hcon
          push_neg at hcon
          exact hns ⟨hex1r, by rw [htd]; exact hcon⟩
    · have hrexr : IsExactCand trec ref := by
        rcases List.mem_append.1 hr with h1 | h1
        · exact absurd ⟨r, h1, hrex⟩ hseen
        · rwa [List.mem_singleton.1 h1] at hrex
      have hnf : ih.str_class ≠ "full-splice_match" :=
        hnFSM (fun r0 hr0 hex0 => hseen ⟨r0, hr0, hex0⟩)
      rw [processRef_exact_notFSM trec ref ih hcls hnf hrexr]
      refine ⟨rfl, ref, List.mem_append_right _ (List.mem_singleton_self _),
        hrexr, rfl, rfl, rfl, rfl, ?_⟩
      intro r1 hr1 hex1
      rcases List.mem_append.1 hr1 with h1 | h1
      · exact absurd ⟨r1, h1, hex1⟩ hseen
      · rw [List.mem_singleton.1 h1]
  · intro hall
    have hnone : ∀ r0, r0 ∈ seen → ¬ IsExactCand trec r0 :=
      fun r0 hr0 => hall r0 (List.mem_append_left _ hr0)
    exact processRef_not_FSM trec ref ih (hnFSM hnone)
      (hall ref (List.mem_append_right _ (List.mem_singleton_self _)))

theorem foldl_foldInv (trec : genePredRecord) (refs : List genePredRecord) :
    ∀ (seen : List genePredRecord) (ih : myQueryTranscripts),
      FoldInv trec seen ih →
      FoldInv trec (seen ++ refs) (refs.foldl (processRef trec) ih) := by
  induction refs with
  | nil =>
    intro seen ih h
    simpa using h
  | cons a t ihind =>
    intro seen ih h
    have h1 := processRef_foldInv trec a seen ih h
    have h2 := ihind (seen ++ [a]) _ h1
    rw [List.append_assoc] at h2
    simpa using h2

theorem geneFold_foldInv (trec : genePredRecord) (refs : List genePredRecord) :
    FoldInv trec refs (geneFold trec refs) := by
  have h0 : FoldInv trec [] (blankHit trec) := by
    refine ⟨Or.inl rfl, ?_, ?_⟩
    · rintro ⟨r, hr, _⟩
      cases hr
    · intro _
      simp [blankHit]
  have h := foldl_foldInv trec refs [] (blankHit trec) h0
  simpa [geneFold] using h

/-- Claim C1: a multi-exon query whose junction chain equals that of some
same-chromosome, same-strand, span-overlapping indexed reference is
classified `full-splice_match`; and within any gene's candidate list
containing an exact match, the per-gene best hit records an exact candidate
whose `abs(diff_tss) + abs(diff_tts)` is minimal among that gene's exact
candidates. -/
theorem claim1_exact_fsm (refs1 refsN : List genePredRecord)
    (sebg : List (String × beginEnds)) (trec ref : genePredRecord)
    (h2 : 2 ≤ trec.exonCount) (href : ref ∈ refsN)
    (hchrom : ref.chrom = trec.chrom) (hstrand : ref.strand = trec.strand)
    (hov1 : ref.txStart < trec.txEnd) (hov2 : trec.txStart < ref.txEnd)
    (hj : trec.junctions = ref.junctions) :
    (transcriptsKnownSpliceSites refs1 refsN sebg trec).str_class =
      "full-splice_match" ∧
    ∀ refsG : List genePredRecord,
      (∃ r1, r1 ∈ refsG ∧ IsExactCand trec r1) →
      ∃ r0, r0 ∈ refsG ∧ IsExactCand trec r0 ∧
        (geneFold trec refsG).str_class = "full-splice_match" ∧
        (geneFold trec refsG).transcripts = [r0.id] ∧
        (geneFold trec refsG).genes = [r0.gene] ∧
        (geneFold trec refsG).tss_diff = some (get_diff_tss_tts trec r0).1 ∧
        (geneFold trec refsG).tts_diff = some (get_diff_tss_tts trec r0).2 ∧
        ∀ r1, r1 ∈ refsG → IsExactCand trec r1 →
          totalD trec r0 ≤ totalD trec r1 := by
  have hexC : IsExactCand trec ref := by
    refine ⟨hstrand, ?_, hj⟩
    have hlen : ref.junctions.length = ref.exonCount - 1 := junctions_length ref
    have hlen2 : trec.junctions.length = trec.exonCount - 1 := junctions_length trec
    rw [← hj, hlen2] at hlen
    omega
  constructor
  · rw [tKSS_class_char refs1 refsN sebg trec h2]
    have hmem : ref ∈ hitsOf refs1 refsN trec := by
      unfold hitsOf treeFind
      refine List.mem_append_left _ (List.mem_filter.2 ⟨href, ?_⟩)
      simp [hchrom, hov1, hov2]
    have hcr : candRank trec ref = 5 := by
      unfold candRank
      rw [if_neg (fun hne => hne hexC.1.symm), if_neg hexC.2.1,
        if_pos ((compare_junctions_exact_iff trec ref).2 hj)]
    have hscore : cat_ranking (geneFold trec ((hitsOf refs1 refsN trec).filter
        (fun r => r.gene == ref.gene))).str_class = 5 := by
      rw [(geneFold_rank trec _).1]
      have hmemf : ref ∈ (hitsOf refs1 refsN trec).filter
          (fun r => r.gene == ref.gene) :=
        List.mem_filter.2 ⟨hmem, by simp⟩
      have hge : 5 ≤ natSup (((hitsOf refs1 refsN trec).filter
          (fun r => r.gene == ref.gene)).map (candRank trec)) :=
        le_natSup (List.mem_map.2 ⟨ref, hmemf, hcr⟩)
      have hle : natSup (((hitsOf refs1 refsN trec).filter
          (fun r => r.gene == ref.gene)).map (candRank trec)) ≤ 5 :=
        natSup_le (by
          rintro x hx
          rcases List.mem_map.1 hx with ⟨r, _, rfl⟩
          exact candRank_le trec r)
      omega
    have hsup : natSup ((geneTuples trec (hitsOf refs1 refsN trec)).map
        geneHitTuple.score) = 5 := by
      rw [geneTuples_map_score]
      have hgmem : ref.gene ∈ geneKeys (hitsOf refs1 refsN trec) :=
        (mem_geneKeys _ _).2 ⟨ref, hmem, rfl⟩
      have hge : 5 ≤ natSup ((geneKeys (hitsOf refs1 refsN trec)).map
          (fun g => cat_ranking (geneFold trec ((hitsOf refs1 refsN trec).filter
            (fun r => r.gene == g))).str_class)) :=
        le_natSup (List.mem_map.2 ⟨ref.gene, hgmem, hscore⟩)
      have hle : natSup ((geneKeys (hitsOf refs1 refsN trec)).map
          (fun g => cat_ranking (geneFold trec ((hitsOf refs1 refsN trec).filter
            (fun r => r.gene == g))).str_class)) ≤ 5 :=
        natSup_le (by
          rintro x hx
          rcases List.mem_map.1 hx with ⟨g, _, rfl⟩
          exact cat_ranking_le _)
      omega
    rw [hsup]
    rfl
  · intro refsG hexists
    obtain ⟨_, hexB, _⟩ := geneFold_foldInv trec refsG
    obtain ⟨hFSM, r0, hr0, hr0ex, htr, hg, hts, htt, hmin⟩ := hexB hexists
    exact ⟨r0, hr0, hr0ex, hFSM, htr, hg, hts, htt, hmin⟩

/-- Claim C1 witness: applied to the junction-identical pair `qC6`, `refG`. -/
theorem claim1_exact_fsm_witness :
    (2 ≤ qC6.exonCount ∧ refG ∈ [refG] ∧ refG.chrom = qC6.chrom ∧
      refG.strand = qC6.strand ∧ refG.txStart < qC6.txEnd ∧
      qC6.txStart < refG.txEnd ∧ qC6.junctions = refG.junctions) ∧
    (transcriptsKnownSpliceSites [] [refG] sebgG qC6).str_class =
      "full-splice_match" :=
  ⟨by decide,
    (claim1_exact_fsm [] [refG] sebgG qC6 refG (by decide) (by decide)
      (by decide) (by decide) (by decide) (by decide) (by decide)).1⟩

end SQ3
